import Mathlib

/-!
# AXMQ plugin SDK: metadata validation, default hooks, loader and debug runner

A shallow embedding of `pluginapi/{errors,meta,context,api}.go`,
`examples/auth_plugin/main.go` and `runner/main.go`.

Conventions of the embedding:

* a Go `error` value is a `GoError`; the interface value `nil` is `none` of
  `Option GoError`;
* a `time.Duration` is its number of nanoseconds, an `Int`;
* a `[]byte` is the list of its bytes (`List Nat`, each below 256); the `nil`
  slice and the empty slice are both `[]` (the code only converts to `string`
  and takes `len`);
* a Go `string` is a Lean `String`; where the code compares a `string` with a
  `[]byte` the string is taken to its UTF-8 bytes;
* a hook receives a pointer to a context record; the embedding returns the record
  as it stands after the call next to the hook's results;
* the constant `pluginapi.SDKVersion` is declared outside the files embedded
  here; every definition that reads it takes its value as the parameter `sdk`.
-/

namespace AxmqPluginSdk

/-! ## `pluginapi/errors.go` -/

/-- Go error values. The first ten constructors are the package-level variables of
`pluginapi/errors.go`, each created by its own `errors.New` and so each a distinct
value. `foreign msg` is an error made outside `pluginapi` (by the standard library or
by plugin code), known by its text `msg`; `wrapf p inner` is `fmt.Errorf(p + "%w", inner)`. -/
inductive GoError where
  | ErrInvalidPluginName
  | ErrMissingSDKVersion
  | ErrSDKVersionMismatch
  | ErrGoVersionMismatch
  | ErrPluginNotFound
  | ErrMetaNotFound
  | ErrSymbolNotFound
  | ErrInvalidPluginType
  | ErrPluginInitFailed
  | ErrPluginAlreadyExist
  | foreign (msg : String)
  | wrapf (p : String) (inner : GoError)
  deriving DecidableEq, Repr

namespace GoError

/-- The text of an error, Go's `err.Error()`. -/
def Error : GoError → String
  | ErrInvalidPluginName => "plugin name is empty"
  | ErrMissingSDKVersion => "sdk version is missing"
  | ErrSDKVersionMismatch => "sdk version mismatch between plugin and host"
  | ErrGoVersionMismatch => "go version mismatch between plugin and host"
  | ErrPluginNotFound => "plugin file not found"
  | ErrMetaNotFound => "plugin meta file not found"
  | ErrSymbolNotFound => "plugin does not export 'NewPlugin' symbol"
  | ErrInvalidPluginType => "plugin symbol is not of type func() Plugin"
  | ErrPluginInitFailed => "plugin initialization failed"
  | ErrPluginAlreadyExist => "plugin with same name already loaded"
  | foreign msg => msg
  | wrapf p inner => p ++ inner.Error

/-- Go's `errors.Is(err, target)`: `err` or an error it wraps is `target`. -/
def Is : GoError → GoError → Bool
  | wrapf p inner, target => decide (wrapf p inner = target) || Is inner target
  | err, target => decide (err = target)

/-- The variables declared in `pluginapi/errors.go`. -/
def sentinels : List GoError :=
  [ErrInvalidPluginName, ErrMissingSDKVersion, ErrSDKVersionMismatch, ErrGoVersionMismatch,
   ErrPluginNotFound, ErrMetaNotFound, ErrSymbolNotFound, ErrInvalidPluginType,
   ErrPluginInitFailed, ErrPluginAlreadyExist]

end GoError

/-! ## `pluginapi/meta.go` -/

/-- One `time.Millisecond`, in nanoseconds. -/
def Millisecond : Int := 1000000

/-- One `time.Second`, in nanoseconds. -/
def Second : Int := 1000 * Millisecond

/-- Default hook timeout. -/
def DefaultHookTimeout : Int := 100 * Millisecond

/-- Largest hook timeout allowed. -/
def MaxHookTimeout : Int := 30 * Second

/-- Plugin metadata, checked when a plugin is loaded. -/
structure PluginMeta where
  Name : String
  Version : String
  SDKVersion : String
  GoVersion : String
  BuildTime : String
  HookTimeout : Int
  deriving DecidableEq, Repr

namespace PluginMeta

/-- The effective hook timeout. -/
def GetHookTimeout (m : PluginMeta) : Int :=
  if m.HookTimeout ≤ 0 then DefaultHookTimeout
  else if m.HookTimeout > MaxHookTimeout then MaxHookTimeout
  else m.HookTimeout

/-- Validation of the metadata against the host's `SDKVersion` constant `sdk`. -/
def Validate (sdk : String) (m : PluginMeta) : Option GoError :=
  if m.Name = "" then some GoError.ErrInvalidPluginName
  else if m.SDKVersion = "" then some GoError.ErrMissingSDKVersion
  else if m.SDKVersion ≠ sdk then some GoError.ErrSDKVersionMismatch
  else none

end PluginMeta

/-! ## `pluginapi/context.go` -/

/-- Context handed to `OnAuth`. -/
structure AuthContext where
  ClientID : String
  Username : String
  Password : List Nat
  IP : String
  ThreatScore : Int
  deriving DecidableEq, Repr

/-- Context handed to `OnSubscribe`. -/
structure SubscribeContext where
  ClientID : String
  Username : String
  Topic : String
  QoS : Nat
  IP : String
  ThreatScore : Int
  deriving DecidableEq, Repr

/-- Context handed to `OnPublish`. -/
structure PublishContext where
  ClientID : String
  Username : String
  Topic : String
  Payload : List Nat
  QoS : Nat
  Retain : Bool
  deriving DecidableEq, Repr

/-- Context handed to `OnDisconnect`. -/
structure DisconnectContext where
  ClientID : String
  Username : String
  Reason : String
  deriving DecidableEq, Repr

/-! ## `pluginapi/api.go` -/

/-- The `Plugin` interface, for an implementation whose instance state has type `σ`.
Every method takes the state before the call and returns the state after it; a hook
also returns the context record as the call leaves it. Methods are total: a method
that panics or does not return is outside the embedding. -/
structure Plugin (σ : Type) where
  Info : σ → PluginMeta × σ
  Init : List Nat → σ → Option GoError × σ
  Close : σ → Option GoError × σ
  OnAuth : AuthContext → σ → (Bool × Option GoError) × AuthContext × σ
  OnSubscribe : SubscribeContext → σ → (Bool × Option GoError) × SubscribeContext × σ
  OnPublish : PublishContext → σ → PublishContext × σ
  OnDisconnect : DisconnectContext → σ → DisconnectContext × σ

/-- The empty struct `BasePlugin`. -/
structure BasePlugin where
  deriving DecidableEq, Repr

namespace BasePlugin

/-- Default `OnAuth`: results and the context after the call. -/
def OnAuth (_ : BasePlugin) (ctx : AuthContext) : (Bool × Option GoError) × AuthContext :=
  ((true, none), ctx)

/-- Default `OnSubscribe`: results and the context after the call. -/
def OnSubscribe (_ : BasePlugin) (ctx : SubscribeContext) :
    (Bool × Option GoError) × SubscribeContext :=
  ((true, none), ctx)

/-- Default `OnPublish`: the context after the call. -/
def OnPublish (_ : BasePlugin) (ctx : PublishContext) : PublishContext := ctx

/-- Default `OnDisconnect`: the context after the call. -/
def OnDisconnect (_ : BasePlugin) (ctx : DisconnectContext) : DisconnectContext := ctx

/-- Default `Close`. -/
def Close (_ : BasePlugin) : Option GoError := none

end BasePlugin

/-! ## Standard-library pieces the runner and the example plugin rely on -/

/-- UTF-8 encoding of one character, as Go stores it in a `string`. -/
def utf8EncodeChar (c : Char) : List Nat :=
  let v := c.toNat
  if v ≤ 0x7f then [v]
  else if v ≤ 0x7ff then [0xc0 + v / 64, 0x80 + v % 64]
  else if v ≤ 0xffff then [0xe0 + v / 4096, 0x80 + (v / 64) % 64, 0x80 + v % 64]
  else [0xf0 + v / 262144, 0x80 + (v / 4096) % 64, 0x80 + (v / 64) % 64, 0x80 + v % 64]

/-- The bytes of a Go `string`, i.e. `[]byte(s)`. -/
def stringBytes (s : String) : List Nat :=
  s.toList.flatMap utf8EncodeChar

/-- Go's `strings.Contains(s, sub)` on character lists. -/
def containsChars : List Char → List Char → Bool
  | [], sub => sub.isEmpty
  | c :: cs, sub => sub.isPrefixOf (c :: cs) || containsChars cs sub

/-- Go's `strings.Contains(s, sub)`. -/
def stringsContains (s sub : String) : Bool :=
  containsChars s.toList sub.toList

/-- Value of a character in the standard base64 alphabet. -/
def base64Value (c : Char) : Option Nat :=
  if 'A' ≤ c ∧ c ≤ 'Z' then some (c.toNat - 65)
  else if 'a' ≤ c ∧ c ≤ 'z' then some (c.toNat - 97 + 26)
  else if '0' ≤ c ∧ c ≤ '9' then some (c.toNat - 48 + 52)
  else if c = '+' then some 62
  else if c = '/' then some 63
  else none

/-- Decoding of base64 quanta with mandatory `=` padding
(`base64.StdEncoding`), after line breaks have been dropped; `none` is a
`CorruptInputError`. -/
def base64Quanta : List Char → Option (List Nat)
  | [] => some []
  | [_] => none
  | [_, _] => none
  | [_, _, _] => none
  | a :: b :: c :: d :: rest =>
    if c = '=' ∧ d = '=' ∧ rest = [] then
      match base64Value a, base64Value b with
      | some va, some vb => some [va * 4 + vb / 16]
      | _, _ => none
    else if d = '=' ∧ rest = [] then
      match base64Value a, base64Value b, base64Value c with
      | some va, some vb, some vc => some [va * 4 + vb / 16, (vb % 16) * 16 + vc / 4]
      | _, _, _ => none
    else
      match base64Value a, base64Value b, base64Value c, base64Value d, base64Quanta rest with
      | some va, some vb, some vc, some vd, some bytes =>
        some ((va * 4 + vb / 16) :: ((vb % 16) * 16 + vc / 4) :: ((vc % 4) * 64 + vd) :: bytes)
      | _, _, _, _, _ => none

/-- Go's `base64.StdEncoding.Decode` of the text of a JSON string: carriage returns and
line feeds are skipped, anything else outside the alphabet, a short last quantum or
misplaced padding is an error (`none`). -/
def base64StdDecode (s : String) : Option (List Nat) :=
  base64Quanta (s.toList.filter fun c => c ≠ '\r' ∧ c ≠ '\n')

/-- A decoded JSON value. `num n` is a number literal in integer notation, `frac` any
other number literal. -/
inductive JSONValue where
  | null
  | bool (b : Bool)
  | num (n : Int)
  | frac
  | str (s : String)
  | arr (items : List JSONValue)
  | obj (members : List (String × JSONValue))

/-- Simple case folding of one character of an object key, far enough for keys that
are compared with ASCII field names: ASCII capitals go to small letters, the Kelvin
sign to `k` and the long s to `s`. -/
def foldChar (c : Char) : Char :=
  if 'A' ≤ c ∧ c ≤ 'Z' then Char.ofNat (c.toNat + 32)
  else if c.toNat = 0x212A then 'k'
  else if c.toNat = 0x017F then 's'
  else c

/-- Whether an object key selects the struct field `field` (an untagged field, so the
key is its name): `encoding/json` takes an exact match, else a match up to case. -/
def keyMatches (field key : String) : Bool :=
  key = field || key.toList.map foldChar = field.toList.map foldChar

/-- Storing a JSON value into a `string` field; on a type error the field keeps its
value, `null` is a no-op. -/
def storeString (v : JSONValue) (old : String) : String :=
  match v with
  | .str s => s
  | _ => old

/-- Storing a JSON value into a `uint8` variable; `null` is a no-op and on a type or
range error the variable keeps its value. -/
def storeUint8 (v : JSONValue) (old : Nat) : Nat :=
  match v with
  | .num n => if 0 ≤ n ∧ n < 256 then n.toNat else old
  | _ => old

/-- A `[]byte` field as the decoder holds it: `backing` is the array behind the slice as
far as it was ever written (every byte beyond it is zero, whatever the capacity), and
the slice is its first `len` bytes. -/
structure ByteSlice where
  backing : List Nat
  len : Nat
  deriving DecidableEq, Repr

/-- The bytes of the slice. -/
def ByteSlice.bytes (b : ByteSlice) : List Nat :=
  b.backing.take b.len

/-- The elements of a JSON array stored one after the other into the array behind a
slice: element `i` goes into the byte already at index `i` (zero when the slice has to be
extended), which keeps its value when the element cannot be stored; the bytes behind the
last element stay where they are. -/
def storeByteElems : List JSONValue → List Nat → List Nat
  | [], backing => backing
  | v :: vs, backing => storeUint8 v (backing.headD 0) :: storeByteElems vs backing.tail

/-- Storing a JSON value into a `[]byte` field. A JSON string is taken as base64: the
field becomes the decoded bytes in a new array, and on a decoding error it keeps its
value. `null` sets it to `nil`. An array is decoded element by element into the slice
the field holds, whose length becomes the number of elements; an empty array gives a new
empty slice. Anything else is a type error and the field keeps its value. -/
def storeBytes (v : JSONValue) (old : ByteSlice) : ByteSlice :=
  match v with
  | .str s =>
    match base64StdDecode s with
    | some bytes => { backing := bytes, len := bytes.length }
    | none => old
  | .null => { backing := [], len := 0 }
  | .arr [] => { backing := [], len := 0 }
  | .arr items => { backing := storeByteElems items old.backing, len := items.length }
  | _ => old

/-- Storing a JSON value into an `int` field (64 bits). -/
def storeInt (v : JSONValue) (old : Int) : Int :=
  match v with
  | .num n => if -(2 : Int) ^ 63 ≤ n ∧ n < (2 : Int) ^ 63 then n else old
  | _ => old

/-- Storing a JSON value into a `bool` field. -/
def storeBool (v : JSONValue) (old : Bool) : Bool :=
  match v with
  | .bool b => b
  | _ => old

/-- A `json.RawMessage` taken from a parsed script: `none` is the `nil` message of a
case without an `input` member. -/
abbrev RawMessage := Option JSONValue

/-- The members an `Unmarshal` into a struct walks through; the call fails, leaving the
struct as it is, for a `nil` message and for a value that is not an object. -/
def rawMembers (raw : RawMessage) : List (String × JSONValue) :=
  match raw with
  | some (.obj members) => members
  | _ => []

/-- One object member stored into an `AuthContext` under decoding; the second component
is `Password` as the decoder holds it. -/
def AuthContext.storeMember (st : AuthContext × ByteSlice) (kv : String × JSONValue) :
    AuthContext × ByteSlice :=
  if keyMatches "ClientID" kv.1 then
    ({ st.1 with ClientID := storeString kv.2 st.1.ClientID }, st.2)
  else if keyMatches "Username" kv.1 then
    ({ st.1 with Username := storeString kv.2 st.1.Username }, st.2)
  else if keyMatches "Password" kv.1 then
    ({ st.1 with Password := (storeBytes kv.2 st.2).bytes }, storeBytes kv.2 st.2)
  else if keyMatches "IP" kv.1 then ({ st.1 with IP := storeString kv.2 st.1.IP }, st.2)
  else if keyMatches "ThreatScore" kv.1 then
    ({ st.1 with ThreatScore := storeInt kv.2 st.1.ThreatScore }, st.2)
  else st

/-- One object member stored into a `SubscribeContext`. -/
def SubscribeContext.storeMember (ctx : SubscribeContext) (kv : String × JSONValue) :
    SubscribeContext :=
  if keyMatches "ClientID" kv.1 then { ctx with ClientID := storeString kv.2 ctx.ClientID }
  else if keyMatches "Username" kv.1 then { ctx with Username := storeString kv.2 ctx.Username }
  else if keyMatches "Topic" kv.1 then { ctx with Topic := storeString kv.2 ctx.Topic }
  else if keyMatches "QoS" kv.1 then { ctx with QoS := storeUint8 kv.2 ctx.QoS }
  else if keyMatches "IP" kv.1 then { ctx with IP := storeString kv.2 ctx.IP }
  else if keyMatches "ThreatScore" kv.1 then
    { ctx with ThreatScore := storeInt kv.2 ctx.ThreatScore }
  else ctx

/-- One object member stored into a `PublishContext` under decoding; the second
component is `Payload` as the decoder holds it. -/
def PublishContext.storeMember (st : PublishContext × ByteSlice) (kv : String × JSONValue) :
    PublishContext × ByteSlice :=
  if keyMatches "ClientID" kv.1 then
    ({ st.1 with ClientID := storeString kv.2 st.1.ClientID }, st.2)
  else if keyMatches "Username" kv.1 then
    ({ st.1 with Username := storeString kv.2 st.1.Username }, st.2)
  else if keyMatches "Topic" kv.1 then
    ({ st.1 with Topic := storeString kv.2 st.1.Topic }, st.2)
  else if keyMatches "Payload" kv.1 then
    ({ st.1 with Payload := (storeBytes kv.2 st.2).bytes }, storeBytes kv.2 st.2)
  else if keyMatches "QoS" kv.1 then ({ st.1 with QoS := storeUint8 kv.2 st.1.QoS }, st.2)
  else if keyMatches "Retain" kv.1 then
    ({ st.1 with Retain := storeBool kv.2 st.1.Retain }, st.2)
  else st

/-- One object member stored into a `DisconnectContext`. -/
def DisconnectContext.storeMember (ctx : DisconnectContext) (kv : String × JSONValue) :
    DisconnectContext :=
  if keyMatches "ClientID" kv.1 then { ctx with ClientID := storeString kv.2 ctx.ClientID }
  else if keyMatches "Username" kv.1 then { ctx with Username := storeString kv.2 ctx.Username }
  else if keyMatches "Reason" kv.1 then { ctx with Reason := storeString kv.2 ctx.Reason }
  else ctx

/-- `var ctx AuthContext; json.Unmarshal(raw, &ctx)` with the returned error dropped:
the value of `ctx` afterwards. -/
def unmarshalAuthContext (raw : RawMessage) : AuthContext :=
  ((rawMembers raw).foldl AuthContext.storeMember (⟨"", "", [], "", 0⟩, ⟨[], 0⟩)).1

/-- `var ctx SubscribeContext; json.Unmarshal(raw, &ctx)`, error dropped. -/
def unmarshalSubscribeContext (raw : RawMessage) : SubscribeContext :=
  (rawMembers raw).foldl SubscribeContext.storeMember ⟨"", "", "", 0, "", 0⟩

/-- `var ctx PublishContext; json.Unmarshal(raw, &ctx)`, error dropped. -/
def unmarshalPublishContext (raw : RawMessage) : PublishContext :=
  ((rawMembers raw).foldl PublishContext.storeMember (⟨"", "", "", [], 0, false⟩, ⟨[], 0⟩)).1

/-- `var ctx DisconnectContext; json.Unmarshal(raw, &ctx)`, error dropped. -/
def unmarshalDisconnectContext (raw : RawMessage) : DisconnectContext :=
  (rawMembers raw).foldl DisconnectContext.storeMember ⟨"", "", ""⟩

/-- Go's `unicode.IsSpace`. -/
def isSpace (c : Char) : Bool :=
  let v := c.toNat
  (9 ≤ v ∧ v ≤ 13) || v = 0x20 || v = 0x85 || v = 0xA0 || v = 0x1680 ||
    (0x2000 ≤ v ∧ v ≤ 0x200A) || v = 0x2028 || v = 0x2029 || v = 0x202F || v = 0x205F ||
    v = 0x3000

/-- Go's `strings.TrimSpace`. -/
def trimSpace (s : String) : String :=
  String.mk ((s.toList.dropWhile isSpace).reverse.dropWhile isSpace).reverse

/-- Worker of `fields`: `cur` holds the field being read, last character first. -/
def fieldsAux : List Char → List Char → List String
  | [], cur => if cur.isEmpty then [] else [String.mk cur.reverse]
  | c :: cs, cur =>
    if isSpace c then
      if cur.isEmpty then fieldsAux cs [] else String.mk cur.reverse :: fieldsAux cs []
    else fieldsAux cs (c :: cur)

/-- Go's `strings.Fields`. -/
def fields (s : String) : List String :=
  fieldsAux s.toList []

/-! ## `examples/auth_plugin/main.go` -/

/-- A `map[string]string` as an association list with one entry per key. -/
abbrev StringMap := List (String × String)

/-- Map assignment `m[k] = v`. -/
def StringMap.set (m : StringMap) (k v : String) : StringMap :=
  (k, v) :: m.filter fun kv => kv.1 ≠ k

/-- Map read `v, ok := m[k]`. -/
def StringMap.get (m : StringMap) (k : String) : Option String :=
  m.lookup k

/-- State of the example authentication plugin: the table from user name to password. -/
structure AuthPlugin where
  users : StringMap
  deriving DecidableEq, Repr

namespace AuthPlugin

/-- The factory the plugin exports. -/
def NewPlugin : AuthPlugin :=
  { users := [] }

/-- Metadata of the plugin; `goVersion` is `runtime.Version()` and `now` the formatted
`time.Now()`. -/
def Info (sdk goVersion now : String) (p : AuthPlugin) : PluginMeta × AuthPlugin :=
  ({ Name := "auth_plugin", Version := "1.0.0", SDKVersion := sdk, GoVersion := goVersion,
     BuildTime := now, HookTimeout := 0 }, p)

/-- Initialisation. `parseUsers config` stands for `json.Unmarshal(config, &cfg)`: `none`
when it returns an error, else the `users` table it read. -/
def Init (parseUsers : List Nat → Option StringMap) (config : List Nat) (p : AuthPlugin) :
    Option GoError × AuthPlugin :=
  let p1 : AuthPlugin := { users := (p.users.set "admin" "secret").set "guest" "guest123" }
  let p2 : AuthPlugin :=
    if config.length > 0 then
      match parseUsers config with
      | some users => if users.length > 0 then { users := users } else p1
      | none => p1
    else p1
  (none, p2)

/-- The authentication hook. -/
def OnAuth (ctx : AuthContext) (p : AuthPlugin) :
    (Bool × Option GoError) × AuthContext × AuthPlugin :=
  match p.users.get ctx.Username with
  | none => ((false, none), { ctx with ThreatScore := 30 }, p)
  | some expectedPass =>
    if ctx.Password ≠ stringBytes expectedPass then
      ((false, none), { ctx with ThreatScore := 50 }, p)
    else ((true, none), ctx, p)

/-- The subscription hook. -/
def OnSubscribe (ctx : SubscribeContext) (p : AuthPlugin) :
    (Bool × Option GoError) × SubscribeContext × AuthPlugin :=
  if "$SYS".toList.isPrefixOf ctx.Topic.toList ∧ ctx.Username ≠ "admin" then
    ((false, none), ctx, p)
  else ((true, none), ctx, p)

/-- The publish hook: it only prints. -/
def OnPublish (ctx : PublishContext) (p : AuthPlugin) : PublishContext × AuthPlugin :=
  (ctx, p)

/-- The disconnect hook: it only prints. -/
def OnDisconnect (ctx : DisconnectContext) (p : AuthPlugin) :
    DisconnectContext × AuthPlugin :=
  (ctx, p)

/-- Closing the plugin. -/
def Close (p : AuthPlugin) : Option GoError × AuthPlugin :=
  (none, p)

end AuthPlugin

/-- The example plugin behind the `Plugin` interface. -/
def authPlugin (sdk goVersion now : String) (parseUsers : List Nat → Option StringMap) :
    Plugin AuthPlugin where
  Info := AuthPlugin.Info sdk goVersion now
  Init := AuthPlugin.Init parseUsers
  Close := AuthPlugin.Close
  OnAuth := AuthPlugin.OnAuth
  OnSubscribe := AuthPlugin.OnSubscribe
  OnPublish := AuthPlugin.OnPublish
  OnDisconnect := AuthPlugin.OnDisconnect

/-! ## `runner/main.go` -/

/-- What `Lookup` finds under a name: a `func() pluginapi.Plugin`, given by the method
table and the state of the instance a call returns, or a value of another type. -/
inductive Symbol (σ : Type) where
  | factory (plug : Plugin σ) (fresh : σ)
  | otherType

/-- An opened plugin artifact (`*plugin.Plugin`): its exported symbols. -/
structure Artifact (σ : Type) where
  Lookup : String → Option (Symbol σ)

/-- The `expect` member of a test case: `Allow` is `none` for a nil pointer. -/
structure Expect where
  Allow : Option Bool
  Error : String
  deriving DecidableEq, Repr

/-- One case of a test script. -/
structure TestCase where
  Name : String
  Hook : String
  Input : RawMessage
  Expect : Expect

/-- The surroundings of a runner process. `pluginOpen` is `plugin.Open` (an error is
given by its text), `readFile` is `os.ReadFile` (the bytes read and the error),
`parseScript` is `json.Unmarshal(data, &cases)`, `stdin` holds the lines the scanner
yields before it stops, `scanQoS` is `fmt.Sscanf(arg, "%d", &qos)` for a `uint8`. -/
structure World (σ : Type) where
  pluginOpen : String → Except String (Artifact σ)
  readFile : String → List Nat × Option String
  parseScript : List Nat → Except String (List TestCase)
  stdin : List String
  scanQoS : String → Nat

/-- A hook invocation made by the runner, with the context it passed. -/
inductive HookCall where
  | OnAuth (ctx : AuthContext)
  | OnSubscribe (ctx : SubscribeContext)
  | OnPublish (ctx : PublishContext)
  | OnDisconnect (ctx : DisconnectContext)
  deriving DecidableEq, Repr

/-- A method invocation on the plugin instance (or of its factory) during a run. -/
inductive Event where
  | NewPlugin
  | Info
  | Init (config : List Nat)
  | Close
  | Hook (call : HookCall)
  deriving DecidableEq, Repr

/-- Resolution of a plugin file to a validated instance: the returned pair
(`Except.error e` is `(nil, e)`, `Except.ok` carries the instance) and the invocations
made on the way. -/
def loadPlugin {σ : Type} (sdk : String) (w : World σ) (path : String) :
    Except GoError (Plugin σ × σ) × List Event :=
  match w.pluginOpen path with
  | .error msg => (.error (.wrapf "failed to open plugin: " (.foreign msg)), [])
  | .ok p =>
    match p.Lookup "NewPlugin" with
    | none => (.error .ErrSymbolNotFound, [])
    | some .otherType => (.error .ErrInvalidPluginType, [])
    | some (.factory plug fresh) =>
      let info := plug.Info fresh
      match info.1.Validate sdk with
      | some err => (.error err, [.NewPlugin, .Info])
      | none => (.ok (plug, info.2), [.NewPlugin, .Info])

/-- What `runScript` prints for a case after its name. -/
inductive Verdict where
  | PASS
  | FAIL (allow : Bool) (err : Option GoError)
  | SKIP (hook : String)
  deriving DecidableEq, Repr

/-- The variables of the loop of `runScript`, with the plugin state, the hook
invocations so far and the verdicts printed so far. -/
structure ScriptRun (σ : Type) where
  state : σ
  passed : Nat
  failed : Nat
  calls : List HookCall
  report : List Verdict

/-- The condition `tc.Expect.Allow != nil && result != *tc.Expect.Allow`. -/
def allowDiffers (e : Expect) (result : Bool) : Bool :=
  match e.Allow with
  | some want => result != want
  | none => false

/-- The condition `resultErr == nil || !strings.Contains(resultErr.Error(), sub)`. -/
def errorLacks (resultErr : Option GoError) (sub : String) : Bool :=
  match resultErr with
  | none => true
  | some err => !stringsContains err.Error sub

/-- The check of a hook outcome against the expectation of the case: the value of `ok`
after the two `if` statements. -/
def checkResult (e : Expect) (result : Bool) (resultErr : Option GoError) : Bool :=
  let ok0 : Bool := true
  let ok1 : Bool := if allowDiffers e result then false else ok0
  let ok2 : Bool := if e.Error ≠ "" ∧ errorLacks resultErr e.Error = true then false else ok1
  ok2

/-- The `switch` of the loop body: the hook invoked for the case, with `result`,
`resultErr` and the plugin state after the call; `none` for an unknown hook name. -/
def dispatch {σ : Type} (plug : Plugin σ) (s : σ) (tc : TestCase) :
    Option (HookCall × Bool × Option GoError × σ) :=
  if tc.Hook = "auth" then
    let ctx := unmarshalAuthContext tc.Input
    let r := plug.OnAuth ctx s
    some (.OnAuth ctx, r.1.1, r.1.2, r.2.2)
  else if tc.Hook = "subscribe" then
    let ctx := unmarshalSubscribeContext tc.Input
    let r := plug.OnSubscribe ctx s
    some (.OnSubscribe ctx, r.1.1, r.1.2, r.2.2)
  else if tc.Hook = "publish" then
    let ctx := unmarshalPublishContext tc.Input
    let r := plug.OnPublish ctx s
    some (.OnPublish ctx, true, none, r.2)
  else if tc.Hook = "disconnect" then
    let ctx := unmarshalDisconnectContext tc.Input
    let r := plug.OnDisconnect ctx s
    some (.OnDisconnect ctx, true, none, r.2)
  else none

/-- One iteration of the loop of `runScript`. -/
def runCase {σ : Type} (plug : Plugin σ) (run : ScriptRun σ) (tc : TestCase) : ScriptRun σ :=
  match dispatch plug run.state tc with
  | none => { run with report := run.report ++ [.SKIP tc.Hook] }
  | some (call, result, resultErr, s) =>
    if checkResult tc.Expect result resultErr then
      { state := s, passed := run.passed + 1, failed := run.failed,
        calls := run.calls ++ [call], report := run.report ++ [.PASS] }
    else
      { state := s, passed := run.passed, failed := run.failed + 1,
        calls := run.calls ++ [call], report := run.report ++ [.FAIL result resultErr] }

/-- The loop of `runScript` over the parsed cases, from `passed = 0`, `failed = 0`. -/
def runCases {σ : Type} (plug : Plugin σ) (s : σ) (cases : List TestCase) : ScriptRun σ :=
  cases.foldl (runCase plug) { state := s, passed := 0, failed := 0, calls := [], report := [] }

/-- Outcome of `runScript`: the loop variables at the end and the two numbers of the
closing `Results:` line, `none` when the function returned before the loop. -/
structure ScriptOutcome (σ : Type) where
  run : ScriptRun σ
  summary : Option (Nat × Nat)

/-- Scripted mode. -/
def runScript {σ : Type} (plug : Plugin σ) (w : World σ) (s : σ) (path : String) :
    ScriptOutcome σ :=
  match w.readFile path with
  | (_, some _) =>
    { run := { state := s, passed := 0, failed := 0, calls := [], report := [] }, summary := none }
  | (data, none) =>
    match w.parseScript data with
    | .error _ =>
      { run := { state := s, passed := 0, failed := 0, calls := [], report := [] },
        summary := none }
    | .ok cases =>
      let run := runCases plug s cases
      { run := run, summary := some (run.passed, run.failed) }

/-- The `auth` command of interactive mode: the plugin state and the hook invoked. -/
def handleAuth {σ : Type} (plug : Plugin σ) (args : List String) (s : σ) :
    σ × List HookCall :=
  match args with
  | a0 :: a1 :: a2 :: a3 :: _ =>
    let ctx : AuthContext :=
      { ClientID := a0, Username := a1, Password := stringBytes a2, IP := a3, ThreatScore := 0 }
    ((plug.OnAuth ctx s).2.2, [.OnAuth ctx])
  | _ => (s, [])

/-- The `subscribe` command of interactive mode. -/
def handleSubscribe {σ : Type} (plug : Plugin σ) (scanQoS : String → Nat) (args : List String)
    (s : σ) : σ × List HookCall :=
  match args with
  | a0 :: a1 :: a2 :: a3 :: _ =>
    let ctx : SubscribeContext :=
      { ClientID := a0, Username := a1, Topic := a2, QoS := scanQoS a3, IP := "",
        ThreatScore := 0 }
    ((plug.OnSubscribe ctx s).2.2, [.OnSubscribe ctx])
  | _ => (s, [])

/-- The `publish` command of interactive mode. -/
def handlePublish {σ : Type} (plug : Plugin σ) (scanQoS : String → Nat) (args : List String)
    (s : σ) : σ × List HookCall :=
  match args with
  | a0 :: a1 :: a2 :: a3 :: a4 :: more =>
    let retain : Bool :=
      match more with
      | a5 :: _ => a5 = "true" || a5 = "1"
      | [] => false
    let ctx : PublishContext :=
      { ClientID := a0, Username := a1, Topic := a2, Payload := stringBytes a3,
        QoS := scanQoS a4, Retain := retain }
    ((plug.OnPublish ctx s).2, [.OnPublish ctx])
  | _ => (s, [])

/-- The `disconnect` command of interactive mode. -/
def handleDisconnect {σ : Type} (plug : Plugin σ) (args : List String) (s : σ) :
    σ × List HookCall :=
  match args with
  | a0 :: a1 :: more =>
    let reason : String :=
      match more with
      | a2 :: _ => a2
      | [] => "graceful"
    let ctx : DisconnectContext := { ClientID := a0, Username := a1, Reason := reason }
    ((plug.OnDisconnect ctx s).2, [.OnDisconnect ctx])
  | _ => (s, [])

/-- Interactive mode over the lines the scanner yields: the plugin state at the end and
the hooks invoked, in order. The list running out is `scanner.Scan()` returning false.
A trimmed non-empty line always has a first field; the branch without one stands for
the index panic of `parts[0]` and ends the function. -/
def runInteractive {σ : Type} (plug : Plugin σ) (scanQoS : String → Nat) :
    List String → σ → σ × List HookCall
  | [], s => (s, [])
  | text :: rest, s =>
    let line := trimSpace text
    if line = "" then runInteractive plug scanQoS rest s
    else
      match fields line with
      | [] => (s, [])
      | cmd :: args =>
        if cmd = "help" then runInteractive plug scanQoS rest s
        else if cmd = "auth" then
          let r := handleAuth plug args s
          let t := runInteractive plug scanQoS rest r.1
          (t.1, r.2 ++ t.2)
        else if cmd = "subscribe" then
          let r := handleSubscribe plug scanQoS args s
          let t := runInteractive plug scanQoS rest r.1
          (t.1, r.2 ++ t.2)
        else if cmd = "publish" then
          let r := handlePublish plug scanQoS args s
          let t := runInteractive plug scanQoS rest r.1
          (t.1, r.2 ++ t.2)
        else if cmd = "disconnect" then
          let r := handleDisconnect plug args s
          let t := runInteractive plug scanQoS rest r.1
          (t.1, r.2 ++ t.2)
        else if cmd = "exit" ∨ cmd = "quit" then (s, [])
        else runInteractive plug scanQoS rest s

/-- The command-line flags of the runner. -/
structure Flags where
  pluginPath : String
  scriptPath : String
  configPath : String
  deriving DecidableEq, Repr

/-- A finished run of the runner: the invocations on the plugin in order, the exit
status, and the numbers of the `Results:` line when scripted mode printed it. -/
structure Session where
  events : List Event
  exitCode : Nat
  summary : Option (Nat × Nat)
  deriving DecidableEq, Repr

/-- The configuration bytes `main` hands to `Init`: the content of the file named by
`-config` when the flag is set (a read error only prints a warning), else none. -/
def readConfig {σ : Type} (w : World σ) (flags : Flags) : List Nat :=
  if flags.configPath ≠ "" then (w.readFile flags.configPath).1 else []

/-- The hook names the `switch` of `runScript` knows. -/
def knownHook (hook : String) : Bool :=
  hook = "auth" || hook = "subscribe" || hook = "publish" || hook = "disconnect"

/-- The runner process. `os.Exit(1)` ends it without running the deferred `Close`; a
plain return runs it. -/
def main {σ : Type} (sdk : String) (w : World σ) (flags : Flags) : Session :=
  if flags.pluginPath = "" then { events := [], exitCode := 1, summary := none }
  else
    match loadPlugin sdk w flags.pluginPath with
    | (.error _, loaded) => { events := loaded, exitCode := 1, summary := none }
    | (.ok (plug, s0), loaded) =>
      let s1 := (plug.Info s0).2
      let config : List Nat := readConfig w flags
      match plug.Init config s1 with
      | (some _, _) =>
        { events := loaded ++ [.Info, .Init config], exitCode := 1, summary := none }
      | (none, s2) =>
        if flags.scriptPath ≠ "" then
          let out := runScript plug w s2 flags.scriptPath
          { events := loaded ++ [.Info, .Init config] ++ out.run.calls.map .Hook ++ [.Close],
            exitCode := 0, summary := out.summary }
        else
          let out := runInteractive plug w.scanQoS w.stdin s2
          { events := loaded ++ [.Info, .Init config] ++ out.2.map .Hook ++ [.Close],
            exitCode := 0, summary := none }

/-- Whether a printed verdict is a `SKIP`. -/
def Verdict.isSKIP : Verdict → Bool
  | .SKIP _ => true
  | _ => false

/-- Two states of the script loop agree on everything but the `SKIP` lines printed:
same plugin state, same counters, same hook invocations, same verdicts of the cases
that were run. -/
def ScriptRun.sameOutcome {σ : Type} (a b : ScriptRun σ) : Prop :=
  a.state = b.state ∧ a.passed = b.passed ∧ a.failed = b.failed ∧ a.calls = b.calls ∧
    a.report.filter (fun v => !v.isSKIP) = b.report.filter (fun v => !v.isSKIP)

/-! ## Several loads in one process -/

/-- A plugin file on disk: the plugin path the Go linker stamped into it (the identity
the runtime knows a plugin by; a copy of a file carries the same one) and what it
exports. -/
structure PluginFile (σ : Type) where
  pluginpath : String
  artifact : Artifact σ

/-- One entry of the table package `plugin` keeps of the files it was asked to open:
the file, its plugin path, and the error text of a failed attempt (empty after a
success). -/
structure OpenedPlugin where
  path : String
  pluginpath : String
  err : String
  deriving DecidableEq, Repr

/-- The name `plugin.Open` goes on with once the file is mapped: a trailing `.so` is cut
off a name longer than that. -/
def trimSo (name : String) : String :=
  let cs := name.toList
  if cs.length > 3 ∧ cs.drop (cs.length - 3) = ['.', 's', 'o'] then
    String.mk (cs.take (cs.length - 3))
  else name

/-- Go's `plugin.Open` in a process whose table of opened files is `opened`, over the
files `disk` (`none` where there is no file; paths are taken as resolved): the result
and the table afterwards. A file opened before is returned again (or its failure
reported again); a file whose plugin path is that of a plugin already opened from
another file is refused by the runtime with `plugin already loaded`, and that failure
is entered in the table without a plugin path. -/
def pluginOpenAt {σ : Type} (disk : String → Option (PluginFile σ))
    (opened : List OpenedPlugin) (path : String) :
    Except String (Artifact σ) × List OpenedPlugin :=
  match disk path with
  | none => (.error ("plugin.Open(\"" ++ path ++ "\"): realpath failed"), opened)
  | some file =>
    match opened.find? fun e => e.path = path with
    | some e =>
      if e.err = "" then (.ok file.artifact, opened)
      else
        (.error ("plugin.Open(\"" ++ path ++ "\"): " ++ e.err ++ " (previous failure)"),
          opened)
    | none =>
      if opened.any fun e => e.err = "" ∧ e.pluginpath = file.pluginpath then
        (.error ("plugin.Open(\"" ++ trimSo path ++ "\"): plugin already loaded"),
          { path := path, pluginpath := "", err := "plugin already loaded" } :: opened)
      else
        (.ok file.artifact,
          { path := path, pluginpath := file.pluginpath, err := "" } :: opened)

/-- The surroundings `w` as a process finds them when the files are `disk` and its
table of opened plugin files is `opened`. -/
def processWorld {σ : Type} (w : World σ) (disk : String → Option (PluginFile σ))
    (opened : List OpenedPlugin) : World σ :=
  { w with pluginOpen := fun path => (pluginOpenAt disk opened path).1 }

/-- A host session that calls `loadPlugin` on each of `paths` in turn: the results in
order. `loadPlugin` has no variables of its own, so all that passes from one call to
the next is the table of package `plugin`. -/
def loadAll {σ : Type} (sdk : String) (w : World σ) (disk : String → Option (PluginFile σ)) :
    List OpenedPlugin → List String → List (Except GoError (Plugin σ × σ) × List Event)
  | _, [] => []
  | opened, path :: rest =>
    loadPlugin sdk (processWorld w disk opened) path
      :: loadAll sdk w disk (pluginOpenAt disk opened path).2 rest

/-! ## Statements about scripted mode, in the words of the specification -/

/-- The script name of the hook an invocation went to. -/
def HookCall.hookName : HookCall → String
  | .OnAuth _ => "auth"
  | .OnSubscribe _ => "subscribe"
  | .OnPublish _ => "publish"
  | .OnDisconnect _ => "disconnect"

/-- The one hook invocation a case calls for: the hook its name selects, on the context
decoded from its input; none for an unknown hook name. -/
def expectedCall (tc : TestCase) : Option HookCall :=
  if tc.Hook = "auth" then some (.OnAuth (unmarshalAuthContext tc.Input))
  else if tc.Hook = "subscribe" then some (.OnSubscribe (unmarshalSubscribeContext tc.Input))
  else if tc.Hook = "publish" then some (.OnPublish (unmarshalPublishContext tc.Input))
  else if tc.Hook = "disconnect" then
    some (.OnDisconnect (unmarshalDisconnectContext tc.Input))
  else none

/-- The plugin state after the hook invocation `call` is made on a plugin in state
`s`. -/
def HookCall.apply {σ : Type} (plug : Plugin σ) (s : σ) : HookCall → σ
  | .OnAuth ctx => (plug.OnAuth ctx s).2.2
  | .OnSubscribe ctx => (plug.OnSubscribe ctx s).2.2
  | .OnPublish ctx => (plug.OnPublish ctx s).2
  | .OnDisconnect ctx => (plug.OnDisconnect ctx s).2

/-- The plugin `plug` with a journal: every hook notes the invocation it receives, with
the context it was handed, at the end of the journal in its state, and otherwise does
what the hook of `plug` does. The journal is written by the hooks themselves, so it
holds what was really invoked on the plugin. -/
def recording {σ : Type} (plug : Plugin σ) : Plugin (σ × List HookCall) where
  Info := fun st => ((plug.Info st.1).1, (plug.Info st.1).2, st.2)
  Init := fun config st => ((plug.Init config st.1).1, (plug.Init config st.1).2, st.2)
  Close := fun st => ((plug.Close st.1).1, (plug.Close st.1).2, st.2)
  OnAuth := fun ctx st =>
    ((plug.OnAuth ctx st.1).1, (plug.OnAuth ctx st.1).2.1,
      (plug.OnAuth ctx st.1).2.2, st.2 ++ [.OnAuth ctx])
  OnSubscribe := fun ctx st =>
    ((plug.OnSubscribe ctx st.1).1, (plug.OnSubscribe ctx st.1).2.1,
      (plug.OnSubscribe ctx st.1).2.2, st.2 ++ [.OnSubscribe ctx])
  OnPublish := fun ctx st =>
    ((plug.OnPublish ctx st.1).1, (plug.OnPublish ctx st.1).2, st.2 ++ [.OnPublish ctx])
  OnDisconnect := fun ctx st =>
    ((plug.OnDisconnect ctx st.1).1, (plug.OnDisconnect ctx st.1).2,
      st.2 ++ [.OnDisconnect ctx])

/-- Inputs on which `json.Unmarshal(raw, &ctx)` into a struct is sure to return an
error: the `nil` message, and a value that is neither an object nor `null`. -/
def unmarshalFails (raw : RawMessage) : Bool :=
  match raw with
  | none => true
  | some (.obj _) => false
  | some .null => false
  | some _ => true

/-- The expectation of a case is met by the outcome `(allow, err)` of its hook: the
expected decision is absent or equals `allow`, and the expected error text is empty or
`err` is an error whose message has that text as a substring. -/
def expectationMet (e : Expect) (allow : Bool) (err : Option GoError) : Prop :=
  (e.Allow = none ∨ e.Allow = some allow) ∧
    (e.Error = "" ∨
      ∃ x, err = some x ∧ ∃ front back : List Char,
        x.Error.toList = front ++ e.Error.toList ++ back)

/-! ## Concrete artifacts, scripts and surroundings -/

/-- The artifact built from the example authentication plugin against the SDK version
`built`. -/
def authArtifact (built : String) : Artifact AuthPlugin where
  Lookup := fun name =>
    if name = "NewPlugin" then
      some (.factory (authPlugin built "go1.22" "2025-01-01T00:00:00Z" fun _ => none)
        AuthPlugin.NewPlugin)
    else none

/-- An artifact that exports nothing. -/
def emptyArtifact : Artifact AuthPlugin where
  Lookup := fun _ => none

/-- An artifact whose `NewPlugin` is not a `func() Plugin`. -/
def mistypedArtifact : Artifact AuthPlugin where
  Lookup := fun name => if name = "NewPlugin" then some .otherType else none

/-- Surroundings of a fresh process with four artifacts on disk (the example plugin built
against the host's version `"1.0.0"`, a build against `"0.9.0"`, one without exports,
one with a mistyped export), a script file `cases.json` that parses to `script`, and
`stdin` on standard input. -/
def demoWorld (script : List TestCase) (stdin : List String) : World AuthPlugin where
  pluginOpen := fun path =>
    if path = "auth_plugin.so" then .ok (authArtifact "1.0.0")
    else if path = "old_plugin.so" then .ok (authArtifact "0.9.0")
    else if path = "no_symbol.so" then .ok emptyArtifact
    else if path = "bad_symbol.so" then .ok mistypedArtifact
    else .error ("plugin.Open(\"" ++ path ++ "\"): realpath failed")
  readFile := fun path =>
    if path = "cases.json" then ([91, 93], none)
    else ([], some ("open " ++ path ++ ": no such file or directory"))
  parseScript := fun _ => .ok script
  stdin := stdin
  scanQoS := fun _ => 0

/-- The two-case script: `admin` with the password `secret` expecting `allow = true`,
`admin` with the password `wrong` expecting `allow = false`. -/
def twoCaseScript : List TestCase :=
  [ { Name := "good password", Hook := "auth",
      Input := some (.obj [("username", .str "admin"), ("password", .str "secret")]),
      Expect := { Allow := some true, Error := "" } },
    { Name := "bad password", Hook := "auth",
      Input := some (.obj [("username", .str "admin"), ("password", .str "wrong")]),
      Expect := { Allow := some false, Error := "" } } ]

/-- A case aimed at a hook the runner does not know. -/
def frobnicateCase : TestCase :=
  { Name := "unknown hook", Hook := "frobnicate",
    Input := some (.obj [("username", .str "admin")]),
    Expect := { Allow := some true, Error := "" } }

/-- The two-case script with the unknown-hook case put between its cases. -/
def threeCaseScript : List TestCase :=
  [ { Name := "good password", Hook := "auth",
      Input := some (.obj [("username", .str "admin"), ("password", .str "secret")]),
      Expect := { Allow := some true, Error := "" } },
    frobnicateCase,
    { Name := "bad password", Hook := "auth",
      Input := some (.obj [("username", .str "admin"), ("password", .str "wrong")]),
      Expect := { Allow := some false, Error := "" } } ]

/-- A case whose input is a JSON string, which does not decode into a context. -/
def malformedCase : TestCase :=
  { Name := "input is not an object", Hook := "auth", Input := some (.str "admin:secret"),
    Expect := { Allow := some false, Error := "" } }

/-- The malformed case followed by the two-case script. -/
def malformedFirstScript : List TestCase :=
  malformedCase :: twoCaseScript

/-- A plugin without state whose `OnAuth` allows every connection and reports an error
along with the decision; its other hooks are the defaults of `BasePlugin`. -/
def grumblingPlugin : Plugin Unit where
  Info := fun s => (⟨"grumbling", "1.0.0", "1.0.0", "go1.22", "2025-01-01T00:00:00Z", 0⟩, s)
  Init := fun _ s => (none, s)
  Close := fun s => (none, s)
  OnAuth := fun ctx s => ((true, some (.foreign "user store unreachable")), ctx, s)
  OnSubscribe := fun ctx s =>
    ((BasePlugin.OnSubscribe ⟨⟩ ctx).1, (BasePlugin.OnSubscribe ⟨⟩ ctx).2, s)
  OnPublish := fun ctx s => (BasePlugin.OnPublish ⟨⟩ ctx, s)
  OnDisconnect := fun ctx s => (BasePlugin.OnDisconnect ⟨⟩ ctx, s)

/-- A case that expects `allow = true` and names no error text. -/
def allowCase : TestCase :=
  { Name := "expects allow", Hook := "auth",
    Input := some (.obj [("Username", .str "admin")]),
    Expect := { Allow := some true, Error := "" } }

/-- A case that expects the error text `unreachable` and no particular decision. -/
def errorCase : TestCase :=
  { Name := "expects an error", Hook := "auth", Input := none,
    Expect := { Allow := none, Error := "unreachable" } }

/-- Another plugin, written and built on its own, that also calls itself `auth_plugin`:
it allows everything through the defaults of `BasePlugin`. -/
def namesakePlugin : Plugin AuthPlugin where
  Info := fun s => (⟨"auth_plugin", "2.0.0", "1.0.0", "go1.22", "2025-03-03T00:00:00Z", 0⟩, s)
  Init := fun _ s => (none, s)
  Close := fun s => (BasePlugin.Close ⟨⟩, s)
  OnAuth := fun ctx s => ((BasePlugin.OnAuth ⟨⟩ ctx).1, (BasePlugin.OnAuth ⟨⟩ ctx).2, s)
  OnSubscribe := fun ctx s =>
    ((BasePlugin.OnSubscribe ⟨⟩ ctx).1, (BasePlugin.OnSubscribe ⟨⟩ ctx).2, s)
  OnPublish := fun ctx s => (BasePlugin.OnPublish ⟨⟩ ctx, s)
  OnDisconnect := fun ctx s => (BasePlugin.OnDisconnect ⟨⟩ ctx, s)

/-- The artifact of `namesakePlugin`. -/
def namesakeArtifact : Artifact AuthPlugin where
  Lookup := fun name =>
    if name = "NewPlugin" then some (.factory namesakePlugin AuthPlugin.NewPlugin) else none

/-- Three plugin files: the example plugin, a copy of that file, and the plugin of its
own that reports the same name. -/
def demoDisk : String → Option (PluginFile AuthPlugin) := fun path =>
  if path = "auth_plugin.so" then
    some { pluginpath := "example/auth_plugin", artifact := authArtifact "1.0.0" }
  else if path = "auth_plugin_copy.so" then
    some { pluginpath := "example/auth_plugin", artifact := authArtifact "1.0.0" }
  else if path = "namesake.so" then
    some { pluginpath := "other/namesake", artifact := namesakeArtifact }
  else none

end AxmqPluginSdk

namespace AxmqPluginSdk

/-! ## Metadata -/

/-- C1, the claim as stated is false: with host version `"1.0.0"`, a metadata record
with an empty name and the differing version `"0.9.0"` is rejected with
`ErrInvalidPluginName`, and one with a name and an empty version with
`ErrMissingSDKVersion`; and for no value of the host constant does every record with a
differing version yield `ErrSDKVersionMismatch`. -/
theorem Validate_mismatch_counterexample :
    (("0.9.0" : String) ≠ "1.0.0" ∧
      PluginMeta.Validate "1.0.0" ⟨"", "1.0.0", "0.9.0", "go1.22", "", 0⟩
        = some GoError.ErrInvalidPluginName) ∧
    (("" : String) ≠ "1.0.0" ∧
      PluginMeta.Validate "1.0.0" ⟨"p", "1.0.0", "", "go1.22", "", 0⟩
        = some GoError.ErrMissingSDKVersion) ∧
    ¬ ∃ sdk : String, ∀ m : PluginMeta, m.SDKVersion ≠ sdk →
        m.Validate sdk = some GoError.ErrSDKVersionMismatch := by
  refine ⟨by decide, by decide, ?_⟩
  rintro ⟨sdk, h⟩
  have h1 := h ⟨"", "", sdk ++ "x", "", "", 0⟩ (by
    intro heq
    have := congrArg String.length heq
    simp [String.length_append] at this
    exact absurd this (by decide))
  simp [PluginMeta.Validate] at h1

/-- C1, amended: a metadata record whose `SDKVersion` differs from the host's is always
rejected; the error is `ErrSDKVersionMismatch` when `Name` and `SDKVersion` are both
non-empty (whatever `Version`, `GoVersion`, `BuildTime` and `HookTimeout` hold),
`ErrInvalidPluginName` when `Name` is empty, and `ErrMissingSDKVersion` when `Name` is
non-empty and `SDKVersion` is empty. -/
theorem Validate_mismatch (sdk : String) (m : PluginMeta) (hver : m.SDKVersion ≠ sdk) :
    (m.Name ≠ "" → m.SDKVersion ≠ "" → m.Validate sdk = some GoError.ErrSDKVersionMismatch) ∧
    (m.Name = "" → m.Validate sdk = some GoError.ErrInvalidPluginName) ∧
    (m.Name ≠ "" → m.SDKVersion = "" → m.Validate sdk = some GoError.ErrMissingSDKVersion) ∧
    m.Validate sdk ≠ none := by
  refine ⟨?_, ?_, ?_, ?_⟩
  · intro hn hs
    simp [PluginMeta.Validate, hn, hs, hver]
  · intro hn
    simp [PluginMeta.Validate, hn]
  · intro hn hs
    simp [PluginMeta.Validate, hn, hs]
  · unfold PluginMeta.Validate
    split_ifs <;> simp

/-- Witness of `Validate_mismatch`: name `"p"`, version `"0.9.0"` against host
`"1.0.0"`. -/
theorem Validate_mismatch_witness :
    ("0.9.0" : String) ≠ "1.0.0" ∧ ("p" : String) ≠ "" ∧ ("0.9.0" : String) ≠ "" ∧
    PluginMeta.Validate "1.0.0" ⟨"p", "2.3", "0.9.0", "go1.22", "t", 5⟩
      = some GoError.ErrSDKVersionMismatch :=
  ⟨by decide, by decide, by decide,
    (Validate_mismatch "1.0.0" ⟨"p", "2.3", "0.9.0", "go1.22", "t", 5⟩ (by decide)).1
      (by decide) (by decide)⟩

/-- C2: with durations in nanoseconds, `GetHookTimeout` returns `HookTimeout` when it
lies in `(0, MaxHookTimeout]` (30 s), `DefaultHookTimeout` (100 ms) when it is zero or
negative, and `MaxHookTimeout` when it is larger; two records with the same
`HookTimeout` get the same result whatever their other fields. -/
theorem GetHookTimeout_cases (m : PluginMeta) :
    (0 < m.HookTimeout → m.HookTimeout ≤ 30000000000 → m.GetHookTimeout = m.HookTimeout) ∧
    (m.HookTimeout ≤ 0 → m.GetHookTimeout = 100000000) ∧
    (30000000000 < m.HookTimeout → m.GetHookTimeout = 30000000000) ∧
    (MaxHookTimeout = 30000000000 ∧ DefaultHookTimeout = 100000000) ∧
    (∀ m2 : PluginMeta, m2.HookTimeout = m.HookTimeout →
      m2.GetHookTimeout = m.GetHookTimeout) := by
  have hmax : MaxHookTimeout = 30000000000 := by decide
  have hdef : DefaultHookTimeout = 100000000 := by decide
  refine ⟨?_, ?_, ?_, ⟨hmax, hdef⟩, ?_⟩
  · intro h1 h2
    unfold PluginMeta.GetHookTimeout
    rw [hmax, if_neg (by omega), if_neg (by omega)]
  · intro h1
    unfold PluginMeta.GetHookTimeout
    rw [if_pos h1, hdef]
  · intro h1
    unfold PluginMeta.GetHookTimeout
    rw [hmax, if_neg (by omega), if_pos (by omega)]
  · intro m2 h
    unfold PluginMeta.GetHookTimeout
    rw [h]

/-- Witness of `GetHookTimeout_cases`: 500 ms is kept, -1 ns gives the default, 31 s is
cut to the maximum. -/
theorem GetHookTimeout_cases_witness :
    ((0 : Int) < 500000000 ∧ (500000000 : Int) ≤ 30000000000 ∧
      PluginMeta.GetHookTimeout ⟨"a", "b", "c", "d", "e", 500000000⟩ = 500000000) ∧
    ((-1 : Int) ≤ 0 ∧ PluginMeta.GetHookTimeout ⟨"a", "b", "c", "d", "e", -1⟩ = 100000000) ∧
    ((30000000000 : Int) < 31000000000 ∧
      PluginMeta.GetHookTimeout ⟨"a", "b", "c", "d", "e", 31000000000⟩ = 30000000000) :=
  ⟨⟨by decide, by decide,
      (GetHookTimeout_cases ⟨"a", "b", "c", "d", "e", 500000000⟩).1 (by decide) (by decide)⟩,
    ⟨by decide, (GetHookTimeout_cases ⟨"a", "b", "c", "d", "e", -1⟩).2.1 (by decide)⟩,
    ⟨by decide,
      (GetHookTimeout_cases ⟨"a", "b", "c", "d", "e", 31000000000⟩).2.2.1 (by decide)⟩⟩

/-! ## Default hooks -/

/-- C4: the default hooks of `BasePlugin` allow everything and change nothing: `OnAuth`
and `OnSubscribe` return `(true, nil)`, `OnPublish` and `OnDisconnect` return nothing,
and each leaves the context it was given as it was, `ThreatScore` included. -/
theorem BasePlugin_defaults (b : BasePlugin) :
    (∀ ctx : AuthContext, (b.OnAuth ctx).1 = (true, none) ∧ (b.OnAuth ctx).2 = ctx ∧
      (b.OnAuth ctx).2.ThreatScore = ctx.ThreatScore) ∧
    (∀ ctx : SubscribeContext, (b.OnSubscribe ctx).1 = (true, none) ∧
      (b.OnSubscribe ctx).2 = ctx ∧ (b.OnSubscribe ctx).2.ThreatScore = ctx.ThreatScore) ∧
    (∀ ctx : PublishContext, b.OnPublish ctx = ctx) ∧
    (∀ ctx : DisconnectContext, b.OnDisconnect ctx = ctx) :=
  ⟨fun _ => ⟨rfl, rfl, rfl⟩, fun _ => ⟨rfl, rfl, rfl⟩, fun _ => rfl, fun _ => rfl⟩


/-! ## Loader -/

/-- `Validate` accepts exactly the records with a name and the host's version. -/
theorem Validate_eq_none_iff (sdk : String) (m : PluginMeta) :
    m.Validate sdk = none ↔ m.Name ≠ "" ∧ m.SDKVersion ≠ "" ∧ m.SDKVersion = sdk := by
  unfold PluginMeta.Validate
  split_ifs with h1 h2 h3 <;> simp_all

/-- A successful load went through every step of `loadPlugin`. -/
theorem loadPlugin_ok_inv {σ : Type} (sdk : String) (w : World σ) (path : String)
    (plug : Plugin σ) (s0 : σ) (loaded : List Event)
    (h : loadPlugin sdk w path = (.ok (plug, s0), loaded)) :
    ∃ art fresh, w.pluginOpen path = .ok art ∧
      art.Lookup "NewPlugin" = some (.factory plug fresh) ∧
      (plug.Info fresh).1.Validate sdk = none ∧ s0 = (plug.Info fresh).2 ∧
      loaded = [.NewPlugin, .Info] := by
  unfold loadPlugin at h
  cases hopen : w.pluginOpen path with
  | error msg => simp [hopen] at h
  | ok art =>
    cases hsym : art.Lookup "NewPlugin" with
    | none => simp [hopen, hsym] at h
    | some sym =>
      cases sym with
      | otherType => simp [hopen, hsym] at h
      | factory plug2 fresh =>
        cases hval : (plug2.Info fresh).1.Validate sdk with
        | some err => simp [hopen, hsym, hval] at h
        | none =>
          simp only [hopen, hsym, hval] at h
          simp only [Prod.mk.injEq, Except.ok.injEq] at h
          obtain ⟨⟨hp, hs⟩, hl⟩ := h
          subst hp
          exact ⟨art, fresh, rfl, hsym, hval, hs.symm, hl.symm⟩

/-- A failed load made no invocation beyond the factory and `Info`. -/
theorem loadPlugin_error_events {σ : Type} (sdk : String) (w : World σ) (path : String)
    (e : GoError) (loaded : List Event) (h : loadPlugin sdk w path = (.error e, loaded)) :
    ∀ ev ∈ loaded, ev = .NewPlugin ∨ ev = .Info := by
  unfold loadPlugin at h
  cases hopen : w.pluginOpen path with
  | error msg =>
    simp only [hopen, Prod.mk.injEq] at h
    rw [← h.2]; simp
  | ok art =>
    cases hsym : art.Lookup "NewPlugin" with
    | none =>
      simp only [hopen, hsym, Prod.mk.injEq] at h
      rw [← h.2]; simp
    | some sym =>
      cases sym with
      | otherType =>
        simp only [hopen, hsym, Prod.mk.injEq] at h
        rw [← h.2]; simp
      | factory plug2 fresh =>
        cases hval : (plug2.Info fresh).1.Validate sdk with
        | some err =>
          simp only [hopen, hsym, hval, Prod.mk.injEq] at h
          rw [← h.2]; simp
        | none => simp [hopen, hsym, hval] at h

/-- The run of `main` when the plugin file is named and the load fails. -/
theorem main_of_load_error {σ : Type} (sdk : String) (w : World σ) (flags : Flags)
    (e : GoError) (loaded : List Event) (hpath : flags.pluginPath ≠ "")
    (h : loadPlugin sdk w flags.pluginPath = (.error e, loaded)) :
    main sdk w flags = { events := loaded, exitCode := 1, summary := none } := by
  unfold main
  rw [if_neg hpath, h]

/-- C3: when `Validate` rejects the `Info()` of the instance the factory made,
`loadPlugin` returns that error and no instance, and the run of `main` makes no
invocation on the instance other than the factory call and that `Info()`: no `Init`, no
hook, no `Close`. Conversely a run that calls `Init` or a hook loaded an instance whose
`Info()` passed validation, i.e. has a non-empty `Name` and the host's `SDKVersion`. -/
theorem loadPlugin_rejects_invalid {σ : Type} (sdk : String) (w : World σ) (flags : Flags) :
    (∀ (art : Artifact σ) (plug : Plugin σ) (fresh : σ) (e : GoError),
      w.pluginOpen flags.pluginPath = .ok art →
      art.Lookup "NewPlugin" = some (.factory plug fresh) →
      (plug.Info fresh).1.Validate sdk = some e →
      loadPlugin sdk w flags.pluginPath = (.error e, [.NewPlugin, .Info]) ∧
      (main sdk w flags).exitCode = 1 ∧
      ∀ ev ∈ (main sdk w flags).events, ev = .NewPlugin ∨ ev = .Info) ∧
    ((∃ ev ∈ (main sdk w flags).events, (∃ c, ev = .Init c) ∨ ∃ call, ev = .Hook call) →
      ∃ art plug fresh, w.pluginOpen flags.pluginPath = .ok art ∧
        art.Lookup "NewPlugin" = some (.factory plug fresh) ∧
        (plug.Info fresh).1.Validate sdk = none ∧
        (plug.Info fresh).1.Name ≠ "" ∧ (plug.Info fresh).1.SDKVersion = sdk) := by
  constructor
  · intro art plug fresh e hopen hsym hval
    have hload : loadPlugin sdk w flags.pluginPath = (.error e, [.NewPlugin, .Info]) := by
      simp only [loadPlugin, hopen, hsym, hval]
    refine ⟨hload, ?_, ?_⟩
    · by_cases hpath : flags.pluginPath = ""
      · simp [main, hpath]
      · rw [main_of_load_error sdk w flags e _ hpath hload]
    · by_cases hpath : flags.pluginPath = ""
      · simp [main, hpath]
      · rw [main_of_load_error sdk w flags e _ hpath hload]
        simp
  · rintro ⟨ev, hmem, hev⟩
    by_cases hpath : flags.pluginPath = ""
    · simp [main, hpath] at hmem
    · cases hload : loadPlugin sdk w flags.pluginPath with
      | mk res loaded =>
        cases res with
        | error e =>
          rw [main_of_load_error sdk w flags e loaded hpath hload] at hmem
          have := loadPlugin_error_events sdk w flags.pluginPath e loaded hload ev hmem
          rcases hev with ⟨c, hc⟩ | ⟨call, hc⟩ <;> subst hc <;> simp at this
        | ok inst =>
          obtain ⟨plug, s0⟩ := inst
          obtain ⟨art, fresh, hopen, hsym, hval, -, -⟩ :=
            loadPlugin_ok_inv sdk w flags.pluginPath plug s0 loaded hload
          have hv := (Validate_eq_none_iff sdk _).1 hval
          exact ⟨art, plug, fresh, hopen, hsym, hval, hv.1, hv.2.2⟩

/-- C7: when the opened artifact has no symbol `NewPlugin`, `loadPlugin` returns
`ErrSymbolNotFound` and no instance; when the symbol is not a `func() Plugin` it returns
`ErrInvalidPluginType`; either way neither `loadPlugin` nor the run of `main` invokes
the factory, `Info`, `Init`, `Close` or a hook, and `main` exits with status 1. -/
theorem loadPlugin_factory_errors {σ : Type} (sdk : String) (w : World σ) (flags : Flags)
    (art : Artifact σ) (hopen : w.pluginOpen flags.pluginPath = .ok art) :
    (art.Lookup "NewPlugin" = none →
      loadPlugin sdk w flags.pluginPath = (.error .ErrSymbolNotFound, []) ∧
      (main sdk w flags).events = [] ∧ (main sdk w flags).exitCode = 1) ∧
    (art.Lookup "NewPlugin" = some .otherType →
      loadPlugin sdk w flags.pluginPath = (.error .ErrInvalidPluginType, []) ∧
      (main sdk w flags).events = [] ∧ (main sdk w flags).exitCode = 1) := by
  constructor
  · intro hsym
    have hload : loadPlugin sdk w flags.pluginPath = (.error .ErrSymbolNotFound, []) := by
      simp only [loadPlugin, hopen, hsym]
    refine ⟨hload, ?_⟩
    by_cases hpath : flags.pluginPath = ""
    · simp [main, hpath]
    · rw [main_of_load_error sdk w flags _ _ hpath hload]
      exact ⟨rfl, rfl⟩
  · intro hsym
    have hload : loadPlugin sdk w flags.pluginPath = (.error .ErrInvalidPluginType, []) := by
      simp only [loadPlugin, hopen, hsym]
    refine ⟨hload, ?_⟩
    by_cases hpath : flags.pluginPath = ""
    · simp [main, hpath]
    · rw [main_of_load_error sdk w flags _ _ hpath hload]
      exact ⟨rfl, rfl⟩


/-- Witness of `loadPlugin_rejects_invalid`: the example plugin built against `"0.9.0"`
is refused by a host at `"1.0.0"`, and the run that initialises the plugin built against
`"1.0.0"` loaded a valid one. -/
theorem loadPlugin_rejects_invalid_witness :
    (loadPlugin "1.0.0" (demoWorld [] []) "old_plugin.so"
        = (.error .ErrSDKVersionMismatch, [.NewPlugin, .Info]) ∧
      (main "1.0.0" (demoWorld [] []) ⟨"old_plugin.so", "", ""⟩).exitCode = 1 ∧
      ∀ ev ∈ (main "1.0.0" (demoWorld [] []) ⟨"old_plugin.so", "", ""⟩).events,
        ev = .NewPlugin ∨ ev = .Info) ∧
    (Event.Init [] ∈ (main "1.0.0" (demoWorld [] []) ⟨"auth_plugin.so", "", ""⟩).events ∧
      ∃ art plug fresh, (demoWorld [] []).pluginOpen "auth_plugin.so" = .ok art ∧
        art.Lookup "NewPlugin" = some (.factory plug fresh) ∧
        (plug.Info fresh).1.Validate "1.0.0" = none ∧
        (plug.Info fresh).1.Name ≠ "" ∧ (plug.Info fresh).1.SDKVersion = "1.0.0") :=
  ⟨(loadPlugin_rejects_invalid "1.0.0" (demoWorld [] []) ⟨"old_plugin.so", "", ""⟩).1
      (authArtifact "0.9.0") _ _ .ErrSDKVersionMismatch rfl rfl (by decide),
    by decide,
    (loadPlugin_rejects_invalid "1.0.0" (demoWorld [] []) ⟨"auth_plugin.so", "", ""⟩).2
      ⟨.Init [], by decide, Or.inl ⟨[], rfl⟩⟩⟩

/-- Witness of `loadPlugin_factory_errors`: an artifact without exports and one with a
mistyped `NewPlugin`. -/
theorem loadPlugin_factory_errors_witness :
    (loadPlugin "1.0.0" (demoWorld [] []) "no_symbol.so" = (.error .ErrSymbolNotFound, []) ∧
      (main "1.0.0" (demoWorld [] []) ⟨"no_symbol.so", "", ""⟩).events = [] ∧
      (main "1.0.0" (demoWorld [] []) ⟨"no_symbol.so", "", ""⟩).exitCode = 1) ∧
    (loadPlugin "1.0.0" (demoWorld [] []) "bad_symbol.so"
        = (.error .ErrInvalidPluginType, []) ∧
      (main "1.0.0" (demoWorld [] []) ⟨"bad_symbol.so", "", ""⟩).events = [] ∧
      (main "1.0.0" (demoWorld [] []) ⟨"bad_symbol.so", "", ""⟩).exitCode = 1) :=
  ⟨(loadPlugin_factory_errors "1.0.0" (demoWorld [] []) ⟨"no_symbol.so", "", ""⟩
      emptyArtifact rfl).1 rfl,
    (loadPlugin_factory_errors "1.0.0" (demoWorld [] []) ⟨"bad_symbol.so", "", ""⟩
      mistypedArtifact rfl).2 rfl⟩


/-! ## Scripted mode -/

/-- C5, the code at the script of the claim: the example plugin initialised with an
empty configuration holds `admin:secret` and `guest:guest123`; the input of the first
case decodes to a context with the user name `admin` and an empty `Password` (the JSON
string `"secret"` is not valid base64, so the `[]byte` field is left alone), the hook
refuses it, and `runScript` ends with 1 passed and 1 failed instead of 2 and 0. -/
theorem runScript_two_case_script :
    (AuthPlugin.Init (fun _ => none) [] AuthPlugin.NewPlugin).2.users
      = [("guest", "guest123"), ("admin", "secret")] ∧
    unmarshalAuthContext (some (.obj [("username", .str "admin"), ("password", .str "secret")]))
      = { ClientID := "", Username := "admin", Password := [], IP := "", ThreatScore := 0 } ∧
    (runScript (authPlugin "1.0.0" "go1.22" "2025-01-01T00:00:00Z" fun _ => none)
        (demoWorld twoCaseScript [])
        (AuthPlugin.Init (fun _ => none) [] AuthPlugin.NewPlugin).2 "cases.json").summary
      = some (1, 1) ∧
    (runScript (authPlugin "1.0.0" "go1.22" "2025-01-01T00:00:00Z" fun _ => none)
        (demoWorld twoCaseScript [])
        (AuthPlugin.Init (fun _ => none) [] AuthPlugin.NewPlugin).2 "cases.json").run.report
      = [.FAIL false none, .PASS] ∧
    (main "1.0.0" (demoWorld twoCaseScript []) ⟨"auth_plugin.so", "cases.json", ""⟩).summary
      = some (1, 1) := by
  refine ⟨by decide, by decide, by decide, by decide, by decide⟩


/-- The `switch` takes its `default` branch exactly for the unknown hook names. -/
theorem dispatch_eq_none_iff {σ : Type} (plug : Plugin σ) (s : σ) (tc : TestCase) :
    dispatch plug s tc = none ↔ knownHook tc.Hook = false := by
  unfold dispatch knownHook
  split_ifs with h1 h2 h3 h4 <;> simp [*]

/-- An iteration on a case with an unknown hook name only prints `SKIP`. -/
theorem runCase_unknown {σ : Type} (plug : Plugin σ) (run : ScriptRun σ) (tc : TestCase)
    (h : knownHook tc.Hook = false) :
    runCase plug run tc = { run with report := run.report ++ [.SKIP tc.Hook] } := by
  unfold runCase
  rw [(dispatch_eq_none_iff plug run.state tc).2 h]

/-- An iteration whose `switch` invoked a hook, written out. -/
theorem runCase_of_dispatch {σ : Type} (plug : Plugin σ) (run : ScriptRun σ) (tc : TestCase)
    (call : HookCall) (result : Bool) (resultErr : Option GoError) (s : σ)
    (h : dispatch plug run.state tc = some (call, result, resultErr, s)) :
    runCase plug run tc =
      if checkResult tc.Expect result resultErr then
        { state := s, passed := run.passed + 1, failed := run.failed,
          calls := run.calls ++ [call], report := run.report ++ [.PASS] }
      else
        { state := s, passed := run.passed, failed := run.failed + 1,
          calls := run.calls ++ [call], report := run.report ++ [.FAIL result resultErr] } := by
  unfold runCase
  rw [h]

/-- An iteration on a case with a known hook name invokes one hook and counts the case
once, as passed or as failed. -/
theorem runCase_known {σ : Type} (plug : Plugin σ) (run : ScriptRun σ) (tc : TestCase)
    (h : knownHook tc.Hook = true) :
    ∃ call,
      (runCase plug run tc).calls = run.calls ++ [call] ∧
      (runCase plug run tc).passed + (runCase plug run tc).failed
        = run.passed + run.failed + 1 := by
  cases hd : dispatch plug run.state tc with
  | none =>
    rw [(dispatch_eq_none_iff plug run.state tc).1 hd] at h
    exact absurd h (by decide)
  | some r =>
    obtain ⟨call, result, resultErr, s⟩ := r
    refine ⟨call, ?_⟩
    rw [runCase_of_dispatch plug run tc call result resultErr s hd]
    by_cases hc : checkResult tc.Expect result resultErr = true
    · rw [if_pos hc]
      exact ⟨rfl, by show run.passed + 1 + run.failed = _; omega⟩
    · rw [if_neg hc]
      exact ⟨rfl, by show run.passed + (run.failed + 1) = _; omega⟩

/-- One iteration keeps two loop states in agreement up to `SKIP` lines. -/
theorem runCase_sameOutcome {σ : Type} (plug : Plugin σ) (a b : ScriptRun σ) (tc : TestCase)
    (h : a.sameOutcome b) : (runCase plug a tc).sameOutcome (runCase plug b tc) := by
  obtain ⟨hs, hp, hf, hc, hr⟩ := h
  cases hd : dispatch plug b.state tc with
  | none =>
    have hk := (dispatch_eq_none_iff plug b.state tc).1 hd
    rw [runCase_unknown plug a tc hk, runCase_unknown plug b tc hk]
    refine ⟨hs, hp, hf, hc, ?_⟩
    show List.filter _ (a.report ++ _) = List.filter _ (b.report ++ _)
    rw [List.filter_append, List.filter_append, hr]
  | some r =>
    obtain ⟨call, result, resultErr, s⟩ := r
    have hda : dispatch plug a.state tc = some (call, result, resultErr, s) := by
      rw [hs]; exact hd
    rw [runCase_of_dispatch plug a tc call result resultErr s hda,
      runCase_of_dispatch plug b tc call result resultErr s hd]
    by_cases hk : checkResult tc.Expect result resultErr = true
    · rw [if_pos hk, if_pos hk]
      refine ⟨rfl, ?_, hf, ?_, ?_⟩
      · show a.passed + 1 = b.passed + 1
        rw [hp]
      · show a.calls ++ _ = b.calls ++ _
        rw [hc]
      · show List.filter _ (a.report ++ _) = List.filter _ (b.report ++ _)
        rw [List.filter_append, List.filter_append, hr]
    · rw [if_neg hk, if_neg hk]
      refine ⟨rfl, hp, ?_, ?_, ?_⟩
      · show a.failed + 1 = b.failed + 1
        rw [hf]
      · show a.calls ++ _ = b.calls ++ _
        rw [hc]
      · show List.filter _ (a.report ++ _) = List.filter _ (b.report ++ _)
        rw [List.filter_append, List.filter_append, hr]

/-- The loop keeps two loop states in agreement up to `SKIP` lines. -/
theorem foldl_runCase_sameOutcome {σ : Type} (plug : Plugin σ) (cases : List TestCase) :
    ∀ a b : ScriptRun σ, a.sameOutcome b →
      (cases.foldl (runCase plug) a).sameOutcome (cases.foldl (runCase plug) b) := by
  induction cases with
  | nil => intro a b h; exact h
  | cons tc rest ih =>
    intro a b h
    exact ih _ _ (runCase_sameOutcome plug a b tc h)

/-- Dropping the cases with an unknown hook name changes the run in its `SKIP` lines
only. -/
theorem foldl_runCase_filter {σ : Type} (plug : Plugin σ) (cases : List TestCase) :
    ∀ a : ScriptRun σ,
      (cases.foldl (runCase plug) a).sameOutcome
        ((cases.filter fun tc => knownHook tc.Hook).foldl (runCase plug) a) := by
  induction cases with
  | nil => intro a; exact ⟨rfl, rfl, rfl, rfl, rfl⟩
  | cons tc rest ih =>
    intro a
    by_cases hk : knownHook tc.Hook = true
    · simp only [List.filter_cons, hk, if_true, List.foldl_cons]
      exact ih _
    · have hk2 : knownHook tc.Hook = false := by simpa using hk
      simp only [List.filter_cons, hk2, List.foldl_cons]
      have h1 := ih (runCase plug a tc)
      have h2 : (runCase plug a tc).sameOutcome a := by
        rw [runCase_unknown plug a tc hk2]
        refine ⟨rfl, rfl, rfl, rfl, ?_⟩
        simp [List.filter_append, Verdict.isSKIP]
      have h3 := foldl_runCase_sameOutcome plug
        (rest.filter fun tc => knownHook tc.Hook) _ _ h2
      obtain ⟨a1, a2, a3, a4, a5⟩ := h1
      obtain ⟨b1, b2, b3, b4, b5⟩ := h3
      exact ⟨a1.trans b1, a2.trans b2, a3.trans b3, a4.trans b4, a5.trans b5⟩

/-- The counters of the loop add up to the cases with a known hook name. -/
theorem foldl_runCase_count {σ : Type} (plug : Plugin σ) (cases : List TestCase) :
    ∀ a : ScriptRun σ,
      (cases.foldl (runCase plug) a).passed + (cases.foldl (runCase plug) a).failed
        = a.passed + a.failed + (cases.filter fun tc => knownHook tc.Hook).length := by
  induction cases with
  | nil => intro a; simp
  | cons tc rest ih =>
    intro a
    rw [List.foldl_cons, ih]
    by_cases hk : knownHook tc.Hook = true
    · obtain ⟨call, -, hcount⟩ := runCase_known plug a tc hk
      simp only [List.filter_cons, hk, if_true, List.length_cons]
      omega
    · have hk2 : knownHook tc.Hook = false := by simpa using hk
      rw [runCase_unknown plug a tc hk2]
      simp only [List.filter_cons, hk2]
      simp

/-- C6: in `runScript`, a case whose hook name is none of `auth`, `subscribe`,
`publish`, `disconnect` invokes no hook and leaves `passed`, `failed` and the plugin
state as they were (it only prints `SKIP`); so at the end `passed + failed` is the number
of cases with a known hook name, and two scripts that differ only in cases with unknown
hook names end with the same counters, the same plugin state, the same hook invocations
and the same verdicts for the cases that were run. -/
theorem runScript_unknown_hook_skipped {σ : Type} (plug : Plugin σ) (s : σ) :
    (∀ (run : ScriptRun σ) (tc : TestCase), knownHook tc.Hook = false →
      runCase plug run tc = { run with report := run.report ++ [.SKIP tc.Hook] } ∧
      (runCase plug run tc).calls = run.calls ∧
      (runCase plug run tc).passed = run.passed ∧
      (runCase plug run tc).failed = run.failed) ∧
    (∀ cases : List TestCase,
      (runCases plug s cases).passed + (runCases plug s cases).failed
        = (cases.filter fun tc => knownHook tc.Hook).length) ∧
    (∀ cases cases2 : List TestCase,
      (cases.filter fun tc => knownHook tc.Hook) = (cases2.filter fun tc => knownHook tc.Hook) →
      (runCases plug s cases).sameOutcome (runCases plug s cases2)) := by
  refine ⟨?_, ?_, ?_⟩
  · intro run tc h
    rw [runCase_unknown plug run tc h]
    exact ⟨rfl, rfl, rfl, rfl⟩
  · intro cases
    unfold runCases
    rw [foldl_runCase_count]
    simp
  · intro cases cases2 h
    unfold runCases
    obtain ⟨a1, a2, a3, a4, a5⟩ := foldl_runCase_filter plug cases
      { state := s, passed := 0, failed := 0, calls := [], report := [] }
    obtain ⟨b1, b2, b3, b4, b5⟩ := foldl_runCase_filter plug cases2
      { state := s, passed := 0, failed := 0, calls := [], report := [] }
    rw [h] at a1 a2 a3 a4 a5
    exact ⟨a1.trans b1.symm, a2.trans b2.symm, a3.trans b3.symm, a4.trans b4.symm,
      a5.trans b5.symm⟩


/-- Witness of `runScript_unknown_hook_skipped`: the `frobnicate` case run on the
initialised example plugin, and the two-case script with and without that case. -/
theorem runScript_unknown_hook_skipped_witness :
    knownHook frobnicateCase.Hook = false ∧
    (runCase (authPlugin "1.0.0" "go1.22" "2025-01-01T00:00:00Z" fun _ => none)
        { state := (AuthPlugin.Init (fun _ => none) [] AuthPlugin.NewPlugin).2,
          passed := 4, failed := 2, calls := [], report := [] } frobnicateCase).passed = 4 ∧
    ((threeCaseScript.filter fun tc => knownHook tc.Hook)
        = twoCaseScript.filter fun tc => knownHook tc.Hook) ∧
    (runCases (authPlugin "1.0.0" "go1.22" "2025-01-01T00:00:00Z" fun _ => none)
        (AuthPlugin.Init (fun _ => none) [] AuthPlugin.NewPlugin).2
        threeCaseScript).sameOutcome
      (runCases (authPlugin "1.0.0" "go1.22" "2025-01-01T00:00:00Z" fun _ => none)
        (AuthPlugin.Init (fun _ => none) [] AuthPlugin.NewPlugin).2 twoCaseScript) :=
  ⟨rfl,
    ((runScript_unknown_hook_skipped
      (authPlugin "1.0.0" "go1.22" "2025-01-01T00:00:00Z" fun _ => none)
      (AuthPlugin.Init (fun _ => none) [] AuthPlugin.NewPlugin).2).1 _ frobnicateCase rfl).2.2.1,
    rfl,
    (runScript_unknown_hook_skipped
      (authPlugin "1.0.0" "go1.22" "2025-01-01T00:00:00Z" fun _ => none)
      (AuthPlugin.Init (fun _ => none) [] AuthPlugin.NewPlugin).2).2.2
      threeCaseScript twoCaseScript rfl⟩


/-! ## Loader errors -/

/-- An error made outside `pluginapi` matches none of its variables. -/
theorem Is_foreign_sentinel (msg : String) (t : GoError) (ht : t ∈ GoError.sentinels) :
    GoError.Is (.foreign msg) t = false := by
  simp only [GoError.sentinels, List.mem_cons, List.mem_singleton, List.not_mem_nil,
    or_false] at ht
  rcases ht with h | h | h | h | h | h | h | h | h | h <;> subst h <;> simp [GoError.Is]

/-- The error `loadPlugin` makes from a failed open matches none of the variables of
`pluginapi`. -/
theorem Is_wrapf_foreign_sentinel (p msg : String) (t : GoError)
    (ht : t ∈ GoError.sentinels) :
    GoError.wrapf p (.foreign msg) ≠ t ∧ GoError.Is (.wrapf p (.foreign msg)) t = false := by
  have hne : GoError.wrapf p (.foreign msg) ≠ t := by
    simp only [GoError.sentinels, List.mem_cons, List.mem_singleton, List.not_mem_nil,
      or_false] at ht
    rcases ht with h | h | h | h | h | h | h | h | h | h <;> subst h <;> simp
  refine ⟨hne, ?_⟩
  unfold GoError.Is
  simp [hne, Is_foreign_sentinel msg t ht]

/-- Every error `loadPlugin` returns for an artifact that opened is one of the variables
of `pluginapi`. -/
theorem loadPlugin_opened_error_mem {σ : Type} (sdk : String) (w : World σ) (path : String)
    (art : Artifact σ) (e : GoError) (hopen : w.pluginOpen path = .ok art)
    (h : (loadPlugin sdk w path).1 = .error e) : e ∈ GoError.sentinels := by
  unfold loadPlugin at h
  rw [hopen] at h
  cases hsym : art.Lookup "NewPlugin" with
  | none =>
    simp only [hsym, Except.error.injEq] at h
    subst h; simp [GoError.sentinels]
  | some sym =>
    cases sym with
    | otherType =>
      simp only [hsym, Except.error.injEq] at h
      subst h; simp [GoError.sentinels]
    | factory plug fresh =>
      simp only [hsym] at h
      cases hval : (plug.Info fresh).1.Validate sdk with
      | none => simp [hval] at h
      | some err =>
        simp only [hval, Except.error.injEq] at h
        subst h
        unfold PluginMeta.Validate at hval
        split_ifs at hval <;> simp at hval <;> subst hval <;> simp [GoError.sentinels]

/-- What `loadPlugin` returns when the open step fails. -/
theorem loadPlugin_of_open_error {σ : Type} (sdk : String) (w : World σ) (path msg : String)
    (hopen : w.pluginOpen path = .error msg) :
    loadPlugin sdk w path
      = (.error (.wrapf "failed to open plugin: " (.foreign msg)), []) := by
  simp only [loadPlugin, hopen]

/-- C8, the claim as stated is false: no artifact exists at `missing.so`, the open step
fails, and the error `loadPlugin` returns is neither `ErrPluginNotFound` nor matches it
under `errors.Is`. -/
theorem loadPlugin_missing_artifact_counterexample :
    (demoWorld [] []).pluginOpen "missing.so"
      = .error "plugin.Open(\"missing.so\"): realpath failed" ∧
    loadPlugin "1.0.0" (demoWorld [] []) "missing.so"
      = (.error (.wrapf "failed to open plugin: "
          (.foreign "plugin.Open(\"missing.so\"): realpath failed")), []) ∧
    GoError.wrapf "failed to open plugin: "
        (.foreign "plugin.Open(\"missing.so\"): realpath failed") ≠ .ErrPluginNotFound ∧
    GoError.Is (.wrapf "failed to open plugin: "
        (.foreign "plugin.Open(\"missing.so\"): realpath failed")) .ErrPluginNotFound = false :=
  ⟨rfl, rfl, by decide, by decide⟩

/-- C8, amended: when the open step fails with an error `e`, `loadPlugin` returns no
instance and the error `fmt.Errorf("failed to open plugin: %w", e)`: its text is that
of `e` after `failed to open plugin: `, it matches `e` under `errors.Is`, and it neither
is nor matches any variable of `pluginapi/errors.go` (`ErrPluginNotFound` among them).
The failures of `loadPlugin` on an artifact that did open are all such variables, so by
identity a failed open is told apart from them. -/
theorem loadPlugin_open_error {σ : Type} (sdk : String) (w : World σ) (path msg : String)
    (hopen : w.pluginOpen path = .error msg) :
    loadPlugin sdk w path
      = (.error (.wrapf "failed to open plugin: " (.foreign msg)), []) ∧
    (GoError.wrapf "failed to open plugin: " (.foreign msg)).Error
      = "failed to open plugin: " ++ msg ∧
    GoError.Is (.wrapf "failed to open plugin: " (.foreign msg)) (.foreign msg) = true ∧
    (∀ t ∈ GoError.sentinels,
      GoError.wrapf "failed to open plugin: " (.foreign msg) ≠ t ∧
      GoError.Is (.wrapf "failed to open plugin: " (.foreign msg)) t = false) ∧
    (∀ (path2 : String) (art : Artifact σ) (e2 : GoError),
      w.pluginOpen path2 = .ok art → (loadPlugin sdk w path2).1 = .error e2 →
      e2 ∈ GoError.sentinels ∧
      GoError.Is (.wrapf "failed to open plugin: " (.foreign msg)) e2 = false) := by
  refine ⟨loadPlugin_of_open_error sdk w path msg hopen, rfl, ?_, ?_, ?_⟩
  · simp [GoError.Is]
  · intro t ht
    exact Is_wrapf_foreign_sentinel _ msg t ht
  · intro path2 art e2 h2 he
    have hmem := loadPlugin_opened_error_mem sdk w path2 art e2 h2 he
    exact ⟨hmem, (Is_wrapf_foreign_sentinel _ msg e2 hmem).2⟩

/-- Witness of `loadPlugin_open_error`: the path `missing.so`, compared with the failure
on the artifact without exports. -/
theorem loadPlugin_open_error_witness :
    loadPlugin "1.0.0" (demoWorld [] []) "missing.so"
      = (.error (.wrapf "failed to open plugin: "
          (.foreign "plugin.Open(\"missing.so\"): realpath failed")), []) ∧
    (GoError.ErrSymbolNotFound ∈ GoError.sentinels ∧
      GoError.Is (.wrapf "failed to open plugin: "
        (.foreign "plugin.Open(\"missing.so\"): realpath failed")) .ErrSymbolNotFound = false) :=
  ⟨(loadPlugin_open_error "1.0.0" (demoWorld [] []) "missing.so"
      "plugin.Open(\"missing.so\"): realpath failed" rfl).1,
    (loadPlugin_open_error "1.0.0" (demoWorld [] []) "missing.so"
      "plugin.Open(\"missing.so\"): realpath failed" rfl).2.2.2.2
      "no_symbol.so" emptyArtifact .ErrSymbolNotFound rfl rfl⟩

/-- `loadPlugin` looks at its surroundings only through what the open step yields for
the path. -/
theorem loadPlugin_congr {σ : Type} (sdk : String) (w1 w2 : World σ) (path : String)
    (h : w1.pluginOpen path = w2.pluginOpen path) :
    loadPlugin sdk w1 path = loadPlugin sdk w2 path := by
  simp only [loadPlugin, h]

/-- No error `loadPlugin` returns is `ErrPluginAlreadyExist` or matches it. -/
theorem loadPlugin_error_ne_already_exist {σ : Type} (sdk : String) (w : World σ) :
    ∀ (path : String) (e : GoError), (loadPlugin sdk w path).1 = .error e →
      e ≠ .ErrPluginAlreadyExist ∧ GoError.Is e .ErrPluginAlreadyExist = false := by
  intro path e he
  cases hopen : w.pluginOpen path with
  | error msg =>
    rw [loadPlugin_of_open_error sdk w path msg hopen] at he
    simp only [Except.error.injEq] at he
    subst he
    exact Is_wrapf_foreign_sentinel _ msg .ErrPluginAlreadyExist (by simp [GoError.sentinels])
  | ok art =>
    unfold loadPlugin at he
    rw [hopen] at he
    cases hsym : art.Lookup "NewPlugin" with
    | none =>
      simp only [hsym, Except.error.injEq] at he
      subst he; simp [GoError.Is]
    | some sym =>
      cases sym with
      | otherType =>
        simp only [hsym, Except.error.injEq] at he
        subst he; simp [GoError.Is]
      | factory plug fresh =>
        simp only [hsym] at he
        cases hval : (plug.Info fresh).1.Validate sdk with
        | none => simp [hval] at he
        | some err =>
          simp only [hval, Except.error.injEq] at he
          subst he
          unfold PluginMeta.Validate at hval
          split_ifs at hval <;> simp at hval <;> subst hval <;> simp [GoError.Is]

/-- A run of `main` calls the factory at most once. -/
theorem main_factory_once {σ : Type} (sdk : String) (w : World σ) :
    ∀ flags : Flags, (main sdk w flags).events.count .NewPlugin ≤ 1 := by
  intro flags
  by_cases hpath : flags.pluginPath = ""
  · simp [main, hpath]
  · cases hload : loadPlugin sdk w flags.pluginPath with
    | mk res loaded =>
      cases res with
      | error e =>
        rw [main_of_load_error sdk w flags e loaded hpath hload]
        unfold loadPlugin at hload
        cases hopen : w.pluginOpen flags.pluginPath with
        | error msg =>
          simp only [hopen, Prod.mk.injEq] at hload
          rw [← hload.2]; simp
        | ok art =>
          cases hsym : art.Lookup "NewPlugin" with
          | none =>
            simp only [hopen, hsym, Prod.mk.injEq] at hload
            rw [← hload.2]; simp
          | some sym =>
            cases sym with
            | otherType =>
              simp only [hopen, hsym, Prod.mk.injEq] at hload
              rw [← hload.2]; simp
            | factory plug2 fresh =>
              cases hval : (plug2.Info fresh).1.Validate sdk with
              | some err =>
                simp only [hopen, hsym, hval, Prod.mk.injEq] at hload
                rw [← hload.2]; simp
              | none => simp [hopen, hsym, hval] at hload
      | ok inst =>
        obtain ⟨plug, s0⟩ := inst
        obtain ⟨art, fresh, -, -, -, -, hl⟩ :=
          loadPlugin_ok_inv sdk w flags.pluginPath plug s0 loaded hload
        subst hl
        unfold main
        rw [if_neg hpath, hload]
        simp only
        split
        · simp
        · split <;> simp [List.count_cons, List.count_append, List.count_eq_zero]

/-- In a fresh process `plugin.Open` opens every file that is there. -/
theorem pluginOpenAt_fresh {σ : Type} (disk : String → Option (PluginFile σ)) (path : String)
    (file : PluginFile σ) (h : disk path = some file) :
    pluginOpenAt disk [] path
      = (.ok file.artifact, [{ path := path, pluginpath := file.pluginpath, err := "" }]) := by
  simp [pluginOpenAt, h]

/-- Whenever `plugin.Open` opens a file, it yields what it yields in a fresh process. -/
theorem pluginOpenAt_ok_eq_fresh {σ : Type} (disk : String → Option (PluginFile σ))
    (opened : List OpenedPlugin) (path : String) (art : Artifact σ)
    (h : (pluginOpenAt disk opened path).1 = .ok art) :
    (pluginOpenAt disk opened path).1 = (pluginOpenAt disk [] path).1 := by
  cases hd : disk path with
  | none => simp [pluginOpenAt, hd] at h
  | some file =>
    rw [pluginOpenAt_fresh disk path file hd]
    unfold pluginOpenAt at h ⊢
    simp only [hd] at h ⊢
    split at h
    · split at h
      · rename_i herr
        rw [if_pos herr]
      · simp at h
    · split at h
      · simp at h
      · rename_i hany
        rw [if_neg hany]

/-- C9, the claim as stated is false: `auth_plugin.so` and `namesake.so` are two plugins
built apart that both report the name `auth_plugin`; in one process, loading the first
succeeds and loading the second afterwards succeeds too, it does not fail with
`ErrPluginAlreadyExist`. -/
theorem loadPlugin_same_name_counterexample :
    ∃ (p1 p2 : Plugin AuthPlugin) (s1 s2 : AuthPlugin),
      loadAll "1.0.0" (demoWorld [] []) demoDisk [] ["auth_plugin.so", "namesake.so"]
        = [(.ok (p1, s1), [.NewPlugin, .Info]), (.ok (p2, s2), [.NewPlugin, .Info])] ∧
      (p1.Info s1).1.Name = "auth_plugin" ∧ (p2.Info s2).1.Name = "auth_plugin" :=
  ⟨_, _, _, _, rfl, rfl, rfl⟩

/-- C9, amended: `loadPlugin` keeps no record of the plugins loaded before. In a process
that has opened any plugin files, a load whose file `plugin.Open` opens returns exactly
what it returns in a fresh process, whatever names were loaded earlier; so loading a
second plugin built apart that reports an already loaded name, or the same file again,
gives the result it gives alone. The only refusal of a repeated load is that of
`plugin.Open` itself, returned wrapped like every open error; no error `loadPlugin`
returns is `ErrPluginAlreadyExist` or matches it; and a run of `main` calls the factory
at most once. -/
theorem loadPlugin_no_registry {σ : Type} (sdk : String) (w : World σ)
    (disk : String → Option (PluginFile σ)) :
    (∀ (opened : List OpenedPlugin) (path : String) (art : Artifact σ),
      (pluginOpenAt disk opened path).1 = .ok art →
      loadPlugin sdk (processWorld w disk opened) path
        = loadPlugin sdk (processWorld w disk []) path) ∧
    (∀ (opened : List OpenedPlugin) (path msg : String),
      (pluginOpenAt disk opened path).1 = .error msg →
      loadPlugin sdk (processWorld w disk opened) path
        = (.error (.wrapf "failed to open plugin: " (.foreign msg)), [])) ∧
    (∀ (path1 path2 : String) (f1 f2 : PluginFile σ),
      disk path1 = some f1 → disk path2 = some f2 → path1 ≠ path2 →
      f1.pluginpath ≠ f2.pluginpath →
      loadAll sdk w disk [] [path1, path2]
        = [loadPlugin sdk (processWorld w disk []) path1,
            loadPlugin sdk (processWorld w disk []) path2]) ∧
    (∀ (path : String) (f : PluginFile σ), disk path = some f →
      loadAll sdk w disk [] [path, path]
        = [loadPlugin sdk (processWorld w disk []) path,
            loadPlugin sdk (processWorld w disk []) path]) ∧
    (∀ (opened : List OpenedPlugin) (path : String) (e : GoError),
      (loadPlugin sdk (processWorld w disk opened) path).1 = .error e →
      e ≠ .ErrPluginAlreadyExist ∧ GoError.Is e .ErrPluginAlreadyExist = false) ∧
    (∀ flags : Flags, (main sdk w flags).events.count .NewPlugin ≤ 1) := by
  have hA : ∀ (opened : List OpenedPlugin) (path : String) (art : Artifact σ),
      (pluginOpenAt disk opened path).1 = .ok art →
      loadPlugin sdk (processWorld w disk opened) path
        = loadPlugin sdk (processWorld w disk []) path := by
    intro opened path art h
    apply loadPlugin_congr
    exact pluginOpenAt_ok_eq_fresh disk opened path art h
  refine ⟨hA, ?_, ?_, ?_, ?_, main_factory_once sdk w⟩
  · intro opened path msg h
    exact loadPlugin_of_open_error sdk (processWorld w disk opened) path msg h
  · intro path1 path2 f1 f2 h1 h2 hne hpp
    have hopen2 : (pluginOpenAt disk (pluginOpenAt disk [] path1).2 path2).1
        = .ok f2.artifact := by
      rw [pluginOpenAt_fresh disk path1 f1 h1]
      have hne2 : ¬ path1 = path2 := hne
      have hpp2 : ¬ f1.pluginpath = f2.pluginpath := hpp
      simp [pluginOpenAt, h2, List.find?, hne2, hpp2]
    simp only [loadAll]
    rw [hA _ path2 f2.artifact hopen2]
  · intro path f h
    have hopen2 : (pluginOpenAt disk (pluginOpenAt disk [] path).2 path).1
        = .ok f.artifact := by
      rw [pluginOpenAt_fresh disk path f h]
      simp [pluginOpenAt, h, List.find?]
    simp only [loadAll]
    rw [hA _ path f.artifact hopen2]
  · intro opened path e he
    exact loadPlugin_error_ne_already_exist sdk (processWorld w disk opened) path e he

/-- Witness of `loadPlugin_no_registry`: after `auth_plugin.so`, the plugin `namesake.so`
loads as it does alone, `auth_plugin.so` loads again, and the copy of the file is
refused by `plugin.Open` with an error that is not `ErrPluginAlreadyExist`. -/
theorem loadPlugin_no_registry_witness :
    loadAll "1.0.0" (demoWorld [] []) demoDisk [] ["auth_plugin.so", "namesake.so"]
      = [loadPlugin "1.0.0" (processWorld (demoWorld [] []) demoDisk []) "auth_plugin.so",
          loadPlugin "1.0.0" (processWorld (demoWorld [] []) demoDisk []) "namesake.so"] ∧
    loadAll "1.0.0" (demoWorld [] []) demoDisk [] ["auth_plugin.so", "auth_plugin.so"]
      = [loadPlugin "1.0.0" (processWorld (demoWorld [] []) demoDisk []) "auth_plugin.so",
          loadPlugin "1.0.0" (processWorld (demoWorld [] []) demoDisk []) "auth_plugin.so"] ∧
    loadPlugin "1.0.0"
        (processWorld (demoWorld [] []) demoDisk
          [{ path := "auth_plugin.so", pluginpath := "example/auth_plugin", err := "" }])
        "auth_plugin_copy.so"
      = (.error (.wrapf "failed to open plugin: "
          (.foreign "plugin.Open(\"auth_plugin_copy\"): plugin already loaded")), []) ∧
    GoError.wrapf "failed to open plugin: "
        (.foreign "plugin.Open(\"auth_plugin_copy\"): plugin already loaded")
      ≠ .ErrPluginAlreadyExist :=
  ⟨(loadPlugin_no_registry "1.0.0" (demoWorld [] []) demoDisk).2.2.1
      "auth_plugin.so" "namesake.so" _ _ rfl rfl (by decide) (by decide),
    (loadPlugin_no_registry "1.0.0" (demoWorld [] []) demoDisk).2.2.2.1
      "auth_plugin.so" _ rfl,
    (loadPlugin_no_registry "1.0.0" (demoWorld [] []) demoDisk).2.1
      [{ path := "auth_plugin.so", pluginpath := "example/auth_plugin", err := "" }]
      "auth_plugin_copy.so" "plugin.Open(\"auth_plugin_copy\"): plugin already loaded" rfl,
    ((loadPlugin_no_registry "1.0.0" (demoWorld [] []) demoDisk).2.2.2.2.1
      [{ path := "auth_plugin.so", pluginpath := "example/auth_plugin", err := "" }]
      "auth_plugin_copy.so" _ rfl).1⟩

/-! ## Teardown -/

/-- The hook the `switch` invokes is the one the case calls for, whatever the plugin
state. -/
theorem dispatch_call {σ : Type} (plug : Plugin σ) (s : σ) (tc : TestCase) :
    (dispatch plug s tc).map (fun r => r.1) = expectedCall tc := by
  unfold dispatch expectedCall
  split_ifs <;> rfl

/-- One iteration adds the invocation the case calls for, if any. -/
theorem runCase_calls {σ : Type} (plug : Plugin σ) (run : ScriptRun σ) (tc : TestCase) :
    (runCase plug run tc).calls = run.calls ++ (expectedCall tc).toList := by
  have hcall := dispatch_call plug run.state tc
  cases hd : dispatch plug run.state tc with
  | none =>
    rw [hd] at hcall
    rw [runCase_unknown plug run tc ((dispatch_eq_none_iff plug run.state tc).1 hd),
      ← hcall]
    simp
  | some r =>
    obtain ⟨call, result, resultErr, s⟩ := r
    rw [hd] at hcall
    rw [runCase_of_dispatch plug run tc call result resultErr s hd, ← hcall]
    by_cases hc : checkResult tc.Expect result resultErr = true
    · rw [if_pos hc]; rfl
    · rw [if_neg hc]; rfl

/-- The loop adds the invocations its cases call for, in the order of the cases. -/
theorem foldl_runCase_calls {σ : Type} (plug : Plugin σ) (cases : List TestCase) :
    ∀ a : ScriptRun σ,
      (cases.foldl (runCase plug) a).calls = a.calls ++ cases.filterMap expectedCall := by
  induction cases with
  | nil => intro a; simp
  | cons tc rest ih =>
    intro a
    rw [List.foldl_cons, ih, runCase_calls]
    cases hx : expectedCall tc with
    | none => simp [List.filterMap_cons, hx]
    | some call => simp [List.filterMap_cons, hx]

/-- A case calls for an invocation exactly when its hook name is known, and then for
the hook of that name. -/
theorem expectedCall_known (tc : TestCase) :
    (knownHook tc.Hook = true → ∃ call, expectedCall tc = some call ∧ call.hookName = tc.Hook) ∧
    (knownHook tc.Hook = false → expectedCall tc = none) := by
  unfold expectedCall knownHook
  split_ifs with h1 h2 h3 h4
  · exact ⟨fun _ => ⟨_, rfl, h1.symm⟩, fun h => by simp [h1] at h⟩
  · exact ⟨fun _ => ⟨_, rfl, h2.symm⟩, fun h => by simp [h2] at h⟩
  · exact ⟨fun _ => ⟨_, rfl, h3.symm⟩, fun h => by simp [h3] at h⟩
  · exact ⟨fun _ => ⟨_, rfl, h4.symm⟩, fun h => by simp [h4] at h⟩
  · exact ⟨fun h => by simp [h1, h2, h3, h4] at h, fun _ => rfl⟩

/-- The hook names of the invocations called for are the known hook names of the
script, in order. -/
theorem filterMap_expectedCall_names (cases : List TestCase) :
    (cases.filterMap expectedCall).map HookCall.hookName
      = (cases.filter fun tc => knownHook tc.Hook).map fun tc => tc.Hook := by
  induction cases with
  | nil => rfl
  | cons tc rest ih =>
    by_cases hk : knownHook tc.Hook = true
    · obtain ⟨call, hcall, hname⟩ := (expectedCall_known tc).1 hk
      simp only [List.filterMap_cons, hcall, List.filter_cons, hk, if_true, List.map_cons, ih,
        hname]
    · have hk2 : knownHook tc.Hook = false := by simpa using hk
      have hnone := (expectedCall_known tc).2 hk2
      simp only [List.filterMap_cons, hnone, List.filter_cons, hk2, ih]
      simp

/-- An input that fails to decode leaves the context at its zero value. -/
theorem rawMembers_of_unmarshalFails (raw : RawMessage) (h : unmarshalFails raw = true) :
    rawMembers raw = [] := by
  cases raw with
  | none => rfl
  | some v => cases v <;> first | rfl | simp [unmarshalFails] at h

/-- The state the `switch` leaves is the state after the invocation the case calls
for. -/
theorem dispatch_state {σ : Type} (plug : Plugin σ) (s : σ) (tc : TestCase) :
    (dispatch plug s tc).map (fun r => r.2.2.2)
      = (expectedCall tc).map (HookCall.apply plug s) := by
  unfold dispatch expectedCall
  split_ifs <;> rfl

/-- One iteration takes the plugin through the invocation the case calls for, if any. -/
theorem runCase_state {σ : Type} (plug : Plugin σ) (run : ScriptRun σ) (tc : TestCase) :
    (runCase plug run tc).state
      = (expectedCall tc).toList.foldl (HookCall.apply plug) run.state := by
  have hstate := dispatch_state plug run.state tc
  cases hd : dispatch plug run.state tc with
  | none =>
    rw [hd] at hstate
    have hnone : expectedCall tc = none := by
      cases hx : expectedCall tc with
      | none => rfl
      | some call => rw [hx] at hstate; simp at hstate
    rw [runCase_unknown plug run tc ((dispatch_eq_none_iff plug run.state tc).1 hd), hnone]
    rfl
  | some r =>
    obtain ⟨call, result, resultErr, s⟩ := r
    rw [hd] at hstate
    cases hx : expectedCall tc with
    | none => rw [hx] at hstate; simp at hstate
    | some call2 =>
      rw [hx] at hstate
      simp only [Option.map_some', Option.some.injEq] at hstate
      rw [runCase_of_dispatch plug run tc call result resultErr s hd]
      by_cases hc : checkResult tc.Expect result resultErr = true
      · rw [if_pos hc]
        simpa using hstate
      · rw [if_neg hc]
        simpa using hstate

/-- The loop takes the plugin through the invocations its cases call for, one after the
other, each on the state the one before left. -/
theorem foldl_runCase_state {σ : Type} (plug : Plugin σ) (cases : List TestCase) :
    ∀ a : ScriptRun σ,
      (cases.foldl (runCase plug) a).state
        = (cases.filterMap expectedCall).foldl (HookCall.apply plug) a.state := by
  induction cases with
  | nil => intro a; rfl
  | cons tc rest ih =>
    intro a
    rw [List.foldl_cons, ih, runCase_state]
    cases hx : expectedCall tc with
    | none => simp [List.filterMap_cons, hx]
    | some call => simp [List.filterMap_cons, hx]

/-- An invocation on the plugin with a journal does to the plugin what it does without,
and is noted at the end of the journal. -/
theorem apply_recording {σ : Type} (plug : Plugin σ) (st : σ × List HookCall)
    (call : HookCall) :
    HookCall.apply (recording plug) st call = (HookCall.apply plug st.1 call, st.2 ++ [call]) := by
  cases call <;> rfl

/-- A sequence of invocations on the plugin with a journal. -/
theorem foldl_apply_recording {σ : Type} (plug : Plugin σ) (calls : List HookCall) :
    ∀ st : σ × List HookCall,
      calls.foldl (HookCall.apply (recording plug)) st
        = (calls.foldl (HookCall.apply plug) st.1, st.2 ++ calls) := by
  induction calls with
  | nil => intro st; simp
  | cons call rest ih =>
    intro st
    rw [List.foldl_cons, ih, apply_recording]
    simp

/-- The `switch` on the plugin with a journal invokes what it invokes on the plugin
itself, with the same results. -/
theorem dispatch_recording {σ : Type} (plug : Plugin σ) (st : σ × List HookCall)
    (tc : TestCase) :
    dispatch (recording plug) st tc
      = (dispatch plug st.1 tc).map
          fun r => (r.1, r.2.1, r.2.2.1, (r.2.2.2, st.2 ++ [r.1])) := by
  unfold dispatch
  split_ifs <;> rfl

/-- The loop on the plugin with a journal counts and prints what it does on the plugin
itself. -/
theorem foldl_runCase_recording {σ : Type} (plug : Plugin σ) (cases : List TestCase) :
    ∀ (a : ScriptRun (σ × List HookCall)) (b : ScriptRun σ),
      a.state.1 = b.state → a.passed = b.passed → a.failed = b.failed →
      a.report = b.report →
      (cases.foldl (runCase (recording plug)) a).state.1
          = (cases.foldl (runCase plug) b).state ∧
        (cases.foldl (runCase (recording plug)) a).passed
          = (cases.foldl (runCase plug) b).passed ∧
        (cases.foldl (runCase (recording plug)) a).failed
          = (cases.foldl (runCase plug) b).failed ∧
        (cases.foldl (runCase (recording plug)) a).report
          = (cases.foldl (runCase plug) b).report := by
  induction cases with
  | nil => intro a b hs hp hf hr; exact ⟨hs, hp, hf, hr⟩
  | cons tc rest ih =>
    intro a b hs hp hf hr
    rw [List.foldl_cons, List.foldl_cons]
    have hdr := dispatch_recording plug a.state tc
    rw [hs] at hdr
    cases hd : dispatch plug b.state tc with
    | none =>
      rw [hd] at hdr
      have hk := (dispatch_eq_none_iff plug b.state tc).1 hd
      rw [runCase_unknown (recording plug) a tc hk, runCase_unknown plug b tc hk]
      exact ih _ _ hs hp hf (by show a.report ++ _ = b.report ++ _; rw [hr])
    | some r =>
      obtain ⟨call, result, resultErr, s⟩ := r
      rw [hd] at hdr
      rw [runCase_of_dispatch (recording plug) a tc call result resultErr _ hdr,
        runCase_of_dispatch plug b tc call result resultErr s hd]
      by_cases hc : checkResult tc.Expect result resultErr = true
      · rw [if_pos hc, if_pos hc]
        exact ih _ _ rfl (by show a.passed + 1 = b.passed + 1; rw [hp]) hf
          (by show a.report ++ _ = b.report ++ _; rw [hr])
      · rw [if_neg hc, if_neg hc]
        exact ih _ _ rfl hp (by show a.failed + 1 = b.failed + 1; rw [hf])
          (by show a.report ++ _ = b.report ++ _; rw [hr])

/-- C11: for every plugin and every parsed script, `runScript` invokes, in the order of
the cases, exactly one hook per case with a known hook name (`OnAuth` for `auth`,
`OnSubscribe` for `subscribe`, `OnPublish` for `publish`, `OnDisconnect` for
`disconnect`, each on the context decoded from the input of the case) and none for the
other cases. This is what the plugin itself receives: run on the plugin with a journal,
the journal written by the hooks ends as that very sequence, while state, counters and
verdicts are those of the run on the plugin alone; and the plugin state at the end is
the result of these invocations made one after the other, each on the state the one
before left. A case whose input fails to decode gets its hook invoked on the zero-valued
context and does not stop the loop: the cases after it are run and counted, and whenever
the script file was read and parsed the summary is produced. -/
theorem runScript_hooks_in_order {σ : Type} (plug : Plugin σ) (s : σ) (w : World σ)
    (path : String) :
    (∀ cases : List TestCase,
      (runCases (recording plug) (s, []) cases).state.2 = cases.filterMap expectedCall ∧
      (runCases (recording plug) (s, []) cases).state.1 = (runCases plug s cases).state ∧
      (runCases (recording plug) (s, []) cases).passed = (runCases plug s cases).passed ∧
      (runCases (recording plug) (s, []) cases).failed = (runCases plug s cases).failed ∧
      (runCases (recording plug) (s, []) cases).report = (runCases plug s cases).report) ∧
    (∀ cases : List TestCase,
      (runCases plug s cases).state
        = (cases.filterMap expectedCall).foldl (HookCall.apply plug) s) ∧
    (∀ cases : List TestCase,
      (runCases plug s cases).calls = cases.filterMap expectedCall ∧
      (runCases plug s cases).calls.map HookCall.hookName
        = (cases.filter fun tc => knownHook tc.Hook).map (fun tc => tc.Hook) ∧
      (runCases plug s cases).calls.length = (cases.filter fun tc => knownHook tc.Hook).length) ∧
    (∀ tc : TestCase,
      (knownHook tc.Hook = true →
        ∃ call, expectedCall tc = some call ∧ call.hookName = tc.Hook) ∧
      (knownHook tc.Hook = false → expectedCall tc = none)) ∧
    (∀ tc : TestCase, unmarshalFails tc.Input = true →
      (tc.Hook = "auth" → expectedCall tc = some (.OnAuth ⟨"", "", [], "", 0⟩)) ∧
      (tc.Hook = "subscribe" → expectedCall tc = some (.OnSubscribe ⟨"", "", "", 0, "", 0⟩)) ∧
      (tc.Hook = "publish" → expectedCall tc = some (.OnPublish ⟨"", "", "", [], 0, false⟩)) ∧
      (tc.Hook = "disconnect" → expectedCall tc = some (.OnDisconnect ⟨"", "", ""⟩))) ∧
    (∀ (before after : List TestCase) (tc : TestCase),
      (runCases plug s (before ++ tc :: after)).calls
        = (runCases plug s (before ++ [tc])).calls ++ after.filterMap expectedCall ∧
      (runCases plug s (before ++ tc :: after)).state
        = (after.filterMap expectedCall).foldl (HookCall.apply plug)
            (runCases plug s (before ++ [tc])).state ∧
      (runCases plug s (before ++ tc :: after)).passed
          + (runCases plug s (before ++ tc :: after)).failed
        = (runCases plug s (before ++ [tc])).passed + (runCases plug s (before ++ [tc])).failed
          + (after.filter fun c => knownHook c.Hook).length) ∧
    (∀ (data : List Nat) (cases : List TestCase),
      w.readFile path = (data, none) → w.parseScript data = .ok cases →
      (runScript plug w s path).summary
        = some ((runCases plug s cases).passed, (runCases plug s cases).failed) ∧
      (runScript plug w s path).run.calls = cases.filterMap expectedCall ∧
      (runScript plug w s path).run.state
        = (cases.filterMap expectedCall).foldl (HookCall.apply plug) s) := by
  have hcalls : ∀ cases : List TestCase,
      (runCases plug s cases).calls = cases.filterMap expectedCall := by
    intro cases
    unfold runCases
    rw [foldl_runCase_calls]
    rfl
  have hstate : ∀ cases : List TestCase,
      (runCases plug s cases).state
        = (cases.filterMap expectedCall).foldl (HookCall.apply plug) s := by
    intro cases
    unfold runCases
    rw [foldl_runCase_state]
  refine ⟨?_, hstate, ?_, expectedCall_known, ?_, ?_, ?_⟩
  · intro cases
    have hrec := foldl_runCase_recording plug cases
      { state := (s, []), passed := 0, failed := 0, calls := [], report := [] }
      { state := s, passed := 0, failed := 0, calls := [], report := [] } rfl rfl rfl rfl
    refine ⟨?_, hrec.1, hrec.2.1, hrec.2.2.1, hrec.2.2.2⟩
    unfold runCases
    rw [foldl_runCase_state, foldl_apply_recording]
    simp
  · intro cases
    refine ⟨hcalls cases, ?_, ?_⟩
    · rw [hcalls, filterMap_expectedCall_names]
    · have := congrArg List.length (filterMap_expectedCall_names cases)
      rw [hcalls]
      simpa using this
  · intro tc hfail
    have hraw := rawMembers_of_unmarshalFails tc.Input hfail
    refine ⟨?_, ?_, ?_, ?_⟩
    · intro h
      simp [expectedCall, h, unmarshalAuthContext, hraw]
    · intro h
      simp [expectedCall, h, unmarshalSubscribeContext, hraw]
    · intro h
      simp [expectedCall, h, unmarshalPublishContext, hraw]
    · intro h
      simp [expectedCall, h, unmarshalDisconnectContext, hraw]
  · intro before after tc
    have hsplit : before ++ tc :: after = (before ++ [tc]) ++ after := by simp
    have h1 : runCases plug s (before ++ tc :: after)
        = after.foldl (runCase plug) (runCases plug s (before ++ [tc])) := by
      unfold runCases
      rw [← List.foldl_append]
      simp
    refine ⟨?_, ?_, ?_⟩
    · rw [hcalls, hcalls, hsplit, List.filterMap_append]
    · rw [h1, foldl_runCase_state]
    · rw [h1, foldl_runCase_count]
  · intro data cases hread hparse
    unfold runScript
    rw [hread]
    simp only [hparse]
    exact ⟨trivial, hcalls cases, hstate cases⟩

/-- Witness of `runScript_hooks_in_order`: a case whose input is a JSON string, followed
by the two-case script, run on the example plugin: its journal ends with three `OnAuth`
invocations, the first on the zero-valued context, all three cases are counted, and the
summary is printed. -/
theorem runScript_hooks_in_order_witness :
    unmarshalFails malformedCase.Input = true ∧
    expectedCall malformedCase = some (.OnAuth ⟨"", "", [], "", 0⟩) ∧
    (runCases (recording (authPlugin "1.0.0" "go1.22" "2025-01-01T00:00:00Z" fun _ => none))
        ((AuthPlugin.Init (fun _ => none) [] AuthPlugin.NewPlugin).2, [])
        malformedFirstScript).state.2
      = [.OnAuth ⟨"", "", [], "", 0⟩, .OnAuth ⟨"", "admin", [], "", 0⟩,
          .OnAuth ⟨"", "admin", [], "", 0⟩] ∧
    (runScript (authPlugin "1.0.0" "go1.22" "2025-01-01T00:00:00Z" fun _ => none)
        (demoWorld malformedFirstScript [])
        (AuthPlugin.Init (fun _ => none) [] AuthPlugin.NewPlugin).2 "cases.json").summary
      = some (2, 1) :=
  ⟨rfl,
    ((runScript_hooks_in_order
        (authPlugin "1.0.0" "go1.22" "2025-01-01T00:00:00Z" fun _ => none)
        (AuthPlugin.Init (fun _ => none) [] AuthPlugin.NewPlugin).2
        (demoWorld malformedFirstScript []) "cases.json").2.2.2.2.1 malformedCase rfl).1 rfl,
    ((runScript_hooks_in_order
        (authPlugin "1.0.0" "go1.22" "2025-01-01T00:00:00Z" fun _ => none)
        (AuthPlugin.Init (fun _ => none) [] AuthPlugin.NewPlugin).2
        (demoWorld malformedFirstScript []) "cases.json").1 malformedFirstScript).1.trans
      (by decide),
    ((runScript_hooks_in_order
        (authPlugin "1.0.0" "go1.22" "2025-01-01T00:00:00Z" fun _ => none)
        (AuthPlugin.Init (fun _ => none) [] AuthPlugin.NewPlugin).2
        (demoWorld malformedFirstScript []) "cases.json").2.2.2.2.2.2
      [91, 93] malformedFirstScript rfl rfl).1.trans (by decide)⟩

/-! ## Scripted mode: the verdict of a case -/

/-- `containsChars` decides whether the second list occurs in the first as a block. -/
theorem containsChars_iff (s sub : List Char) :
    containsChars s sub = true ↔ ∃ front back : List Char, s = front ++ sub ++ back := by
  induction s with
  | nil =>
    unfold containsChars
    constructor
    · intro h
      have hsub : sub = [] := by simpa using h
      exact ⟨[], [], by simp [hsub]⟩
    · rintro ⟨front, back, h⟩
      have h2 : sub = [] := by
        have := congrArg List.length h
        simp at this
        exact List.length_eq_zero.1 (by omega)
      simp [h2]
  | cons c cs ih =>
    unfold containsChars
    rw [Bool.or_eq_true, List.isPrefixOf_iff_prefix, ih]
    constructor
    · rintro (⟨t, ht⟩ | ⟨front, back, h⟩)
      · exact ⟨[], t, by simp [ht]⟩
      · exact ⟨c :: front, back, by simp [h]⟩
    · rintro ⟨front, back, h⟩
      cases front with
      | nil => exact Or.inl ⟨back, by simpa using h.symm⟩
      | cons x f =>
        simp only [List.cons_append, List.cons.injEq] at h
        exact Or.inr ⟨f, back, h.2⟩

/-- The first test of the check fails exactly when the expected decision is absent or
is the decision of the hook. -/
theorem allowDiffers_eq_false_iff (e : Expect) (allow : Bool) :
    allowDiffers e allow = false ↔ (e.Allow = none ∨ e.Allow = some allow) := by
  unfold allowDiffers
  cases h : e.Allow with
  | none => simp
  | some want => cases want <;> cases allow <;> simp

/-- The second test of the check: the error is missing or lacks the expected text. -/
theorem errorLacks_eq_false_iff (err : Option GoError) (sub : String) :
    errorLacks err sub = false ↔
      ∃ x, err = some x ∧ ∃ front back : List Char,
        x.Error.toList = front ++ sub.toList ++ back := by
  unfold errorLacks
  cases err with
  | none => simp
  | some x =>
    simp only [Bool.not_eq_false_eq_eq_true, Option.some.injEq, exists_eq_left']
    unfold stringsContains
    exact containsChars_iff _ _

/-- The check of `runScript` holds exactly when the expectation is met. -/
theorem checkResult_iff (e : Expect) (allow : Bool) (err : Option GoError) :
    checkResult e allow err = true ↔ expectationMet e allow err := by
  unfold checkResult expectationMet
  rw [← allowDiffers_eq_false_iff, ← errorLacks_eq_false_iff]
  by_cases h1 : allowDiffers e allow = true <;> by_cases h2 : e.Error = "" <;>
    by_cases h3 : errorLacks err e.Error = true <;> simp [h1, h2, h3]

/-- C12: in `runScript`, a case with a known hook name has a hook outcome
`(allow, err)`: that of `OnAuth` for `auth`, of `OnSubscribe` for `subscribe`, and
`(true, nil)` for `publish` and `disconnect`. The case is counted as passed (and `PASS`
printed) if and only if the expected decision is absent or equals `allow`, and the
expected error text is empty or `err` is non-nil with a message containing it; otherwise
it is counted as failed. With an empty expected error text the verdict does not depend
on `err`: a case expecting `allow = true` passes on `(true, err)` also when `err` is
non-nil. -/
theorem runScript_verdict {σ : Type} (plug : Plugin σ) (run : ScriptRun σ) (tc : TestCase) :
    (knownHook tc.Hook = true →
      ∃ call allow err s, dispatch plug run.state tc = some (call, allow, err, s)) ∧
    (∀ (call : HookCall) (allow : Bool) (err : Option GoError) (s : σ),
      dispatch plug run.state tc = some (call, allow, err, s) →
      (tc.Hook = "auth" →
        (allow, err) = (plug.OnAuth (unmarshalAuthContext tc.Input) run.state).1) ∧
      (tc.Hook = "subscribe" →
        (allow, err) = (plug.OnSubscribe (unmarshalSubscribeContext tc.Input) run.state).1) ∧
      (tc.Hook = "publish" ∨ tc.Hook = "disconnect" → (allow, err) = (true, none)) ∧
      (expectationMet tc.Expect allow err →
        (runCase plug run tc).passed = run.passed + 1 ∧
        (runCase plug run tc).failed = run.failed ∧
        (runCase plug run tc).report = run.report ++ [.PASS]) ∧
      (¬ expectationMet tc.Expect allow err →
        (runCase plug run tc).passed = run.passed ∧
        (runCase plug run tc).failed = run.failed + 1 ∧
        (runCase plug run tc).report = run.report ++ [.FAIL allow err]) ∧
      (tc.Expect.Error = "" →
        (expectationMet tc.Expect allow err ↔
          (tc.Expect.Allow = none ∨ tc.Expect.Allow = some allow))) ∧
      (tc.Expect.Error = "" → tc.Expect.Allow = some true → allow = true →
        (runCase plug run tc).passed = run.passed + 1 ∧
        (runCase plug run tc).failed = run.failed)) := by
  have hpass : ∀ (call : HookCall) (allow : Bool) (err : Option GoError) (s : σ),
      dispatch plug run.state tc = some (call, allow, err, s) →
      expectationMet tc.Expect allow err →
      (runCase plug run tc).passed = run.passed + 1 ∧
      (runCase plug run tc).failed = run.failed ∧
      (runCase plug run tc).report = run.report ++ [.PASS] := by
    intro call allow err s hd hmet
    rw [runCase_of_dispatch plug run tc call allow err s hd,
      if_pos ((checkResult_iff _ _ _).2 hmet)]
    exact ⟨rfl, rfl, rfl⟩
  constructor
  · intro hk
    cases hd : dispatch plug run.state tc with
    | none =>
      rw [(dispatch_eq_none_iff plug run.state tc).1 hd] at hk
      exact absurd hk (by decide)
    | some r =>
      obtain ⟨call, allow, err, s⟩ := r
      exact ⟨call, allow, err, s, rfl⟩
  · intro call allow err s hd
    refine ⟨?_, ?_, ?_, hpass call allow err s hd, ?_, ?_, ?_⟩
    · intro h
      unfold dispatch at hd
      rw [if_pos h] at hd
      simp only [Option.some.injEq, Prod.mk.injEq] at hd
      rw [← hd.2.1, ← hd.2.2.1]
    · intro h
      have hne : ¬ tc.Hook = "auth" := by rw [h]; decide
      unfold dispatch at hd
      rw [if_neg hne, if_pos h] at hd
      simp only [Option.some.injEq, Prod.mk.injEq] at hd
      rw [← hd.2.1, ← hd.2.2.1]
    · intro h
      unfold dispatch at hd
      rcases h with h | h
      · have h1 : ¬ tc.Hook = "auth" := by rw [h]; decide
        have h2 : ¬ tc.Hook = "subscribe" := by rw [h]; decide
        rw [if_neg h1, if_neg h2, if_pos h] at hd
        simp only [Option.some.injEq, Prod.mk.injEq] at hd
        rw [← hd.2.1, ← hd.2.2.1]
      · have h1 : ¬ tc.Hook = "auth" := by rw [h]; decide
        have h2 : ¬ tc.Hook = "subscribe" := by rw [h]; decide
        have h3 : ¬ tc.Hook = "publish" := by rw [h]; decide
        rw [if_neg h1, if_neg h2, if_neg h3, if_pos h] at hd
        simp only [Option.some.injEq, Prod.mk.injEq] at hd
        rw [← hd.2.1, ← hd.2.2.1]
    · intro hmet
      have hc : ¬ checkResult tc.Expect allow err = true :=
        fun h => hmet ((checkResult_iff _ _ _).1 h)
      rw [runCase_of_dispatch plug run tc call allow err s hd, if_neg hc]
      exact ⟨rfl, rfl, rfl⟩
    · intro herr
      unfold expectationMet
      constructor
      · exact fun h => h.1
      · exact fun h => ⟨h, Or.inl herr⟩
    · intro herr hallow htrue
      have hmet : expectationMet tc.Expect allow err :=
        ⟨Or.inr (by rw [hallow, htrue]), Or.inl herr⟩
      exact ⟨(hpass call allow err s hd hmet).1, (hpass call allow err s hd hmet).2.1⟩

/-- Witness of `runScript_verdict`: on a plugin whose `OnAuth` returns `(true, err)` with
the error text `user store unreachable`, a case expecting `allow = true` passes in spite
of the error, a case expecting the error text `unreachable` passes, and a case expecting
`allow = false` fails. -/
theorem runScript_verdict_witness :
    (runCase grumblingPlugin
        { state := (), passed := 0, failed := 0, calls := [], report := [] } allowCase).passed
      = 0 + 1 ∧
    (runCase grumblingPlugin
        { state := (), passed := 0, failed := 0, calls := [], report := [] } errorCase).report
      = [] ++ [.PASS] ∧
    (runCase grumblingPlugin
        { state := (), passed := 0, failed := 0, calls := [], report := [] }
        { Name := "expects refusal", Hook := "auth", Input := none,
          Expect := { Allow := some false, Error := "" } }).failed
      = 0 + 1 :=
  ⟨(((runScript_verdict grumblingPlugin
        { state := (), passed := 0, failed := 0, calls := [], report := [] } allowCase).2
      (.OnAuth ⟨"", "admin", [], "", 0⟩) true (some (.foreign "user store unreachable")) ()
      rfl).2.2.2.2.2.2 rfl rfl rfl).1,
    (((runScript_verdict grumblingPlugin
        { state := (), passed := 0, failed := 0, calls := [], report := [] } errorCase).2
      (.OnAuth ⟨"", "", [], "", 0⟩) true (some (.foreign "user store unreachable")) ()
      rfl).2.2.2.1
      ⟨Or.inl rfl, Or.inr ⟨_, rfl, "user store ".toList, [], by decide⟩⟩).2.2,
    (((runScript_verdict grumblingPlugin
        { state := (), passed := 0, failed := 0, calls := [], report := [] }
        { Name := "expects refusal", Hook := "auth", Input := none,
          Expect := { Allow := some false, Error := "" } }).2
      (.OnAuth ⟨"", "", [], "", 0⟩) true (some (.foreign "user store unreachable")) ()
      rfl).2.2.2.2.1
      (fun h => by
        rcases h.1 with h1 | h1
        · exact absurd h1 (by decide)
        · exact absurd h1 (by decide))).2.1⟩

end AxmqPluginSdk
